import Mathlib

/-!
# pe-sieve: the scan orchestration of `pe_sieve.cpp`

A shallow embedding of `open_process`, `enum_modules`, `dump_all_modified` and
`check_modules_in_process`.

* Every call that leaves the translation unit (Win32, peconv, the two scanners, the helpers of
  `util.h`) is a field of `World`.  A field receives the list of calls made so far, so a
  collaborator may answer differently on every call.
* Every such call is recorded as an `Event` together with its arguments and its answer.  A
  function of the model takes the trace of the calls made before it was entered and gives back
  the calls it made itself, in order; the loop keeps the whole trace in its state.
* Pointers and handles are natural numbers, `0` being `nullptr` / `NULL`.
* Console output is not modelled.
* The counters of `t_report` are natural numbers: no counter can exceed the module count, which
  is below `2 ^ 32`.
-/

namespace PeSieve

/-! ## Constants and plain data -/

/-- Enumerator values of `t_scan_status`.  The enumeration is declared in a header that is not
among the sources, so its three values are a parameter of the model. -/
structure ScanCodes where
  SCAN_ERROR : Int
  SCAN_NOT_MODIFIED : Int
  SCAN_MODIFIED : Int
  deriving DecidableEq, Repr

/-- The value `ERROR_ACCESS_DENIED` of winerror.h. -/
def ERROR_ACCESS_DENIED : Nat := 5

/-- The value `ERROR_ALREADY_EXISTS` of winerror.h. -/
def ERROR_ALREADY_EXISTS : Nat := 183

/-- The size in bytes of an `HMODULE`: a pointer of the build (`_WIN64` defined or not). -/
def sizeof_HMODULE (win64 : Bool) : Nat := if win64 then 8 else 4

/-- The number of elements of the local array `HMODULE hMods[1024]`. -/
def hMods_capacity : Nat := 1024

/-- The byte size `sizeof(hMods)` handed to `enum_modules`. -/
def sizeof_hMods (win64 : Bool) : Nat := hMods_capacity * sizeof_HMODULE win64

/-- The pseudo handle returned by `GetCurrentProcess()`: `(HANDLE)-1`. -/
def GetCurrentProcess (win64 : Bool) : Nat := 2 ^ (8 * sizeof_HMODULE win64) - 1

/-- The structure `t_params`, with the fields the scan reads. -/
structure t_params where
  pid : Nat
  filter : Nat
  imp_rec : Bool
  no_dump : Bool
  quiet : Bool
  deriving DecidableEq, Repr

/-- The structure `t_report`. -/
structure t_report where
  pid : Nat
  scanned : Nat
  hooked : Nat
  replaced : Nat
  suspicious : Nat
  errors : Nat
  deriving DecidableEq, Repr

/-- One call that leaves `pe_sieve.cpp`, with its arguments and its answer. -/
inductive Event where
  | OpenProcess (processID : Nat) (hProcess : Nat) (lastError : Nat)
  | set_debug_privilege (processID : Nat) (ok : Bool)
  | IsWow64Process (hProcess : Nat) (isWow64 : Bool)
  | EnumProcessModulesEx (hProcess cb filters : Nat) (ok : Bool) (cbNeeded : Nat)
  | CreateDirectoryA (directory : String) (ok : Bool) (lastError : Nat)
  | GetModuleFileNameExA (hProcess hModule : Nat) (name : Option String)
  | load_pe_module (path : String) (buffer size : Nat)
  | free_pe_buffer (buffer size : Nat)
  | convert_to_wow64_path (path : String) (ok : Bool) (converted : String)
  | hollows_scanRemote (modBaseAddr buffer size : Nat) (status : Int)
  | add_to_lookup (name : String) (buffer modBaseAddr : Nat)
  | hooks_scanRemote (modBaseAddr buffer size : Nat) (status : Int) (patches : List Nat)
  | report_patches (patches : List Nat) (reportPath : String)
  | dump_remote_pe (path : String) (hProcess modBaseAddr : Nat) (unmap : Bool)
      (exportsMap : Bool) (ok : Bool)
  deriving DecidableEq, Repr

/-- The collaborators of the scan.  The first argument of a stateful collaborator is the trace of
the calls made before it.

* `OpenProcess` answers the handle (`0` on failure) and the value of `GetLastError()`.
* `IsWow64Process` answers the value left in its out-parameter.
* `EnumProcessModulesEx` answers its `BOOL`, the handles it stored and `*lpcbNeeded`.
* `CreateDirectoryA` answers its `BOOL` and the value of `GetLastError()`.
* `GetModuleFileNameExA` answers `none` for the return value `0`.
* `load_pe_module` answers the buffer (`0` for `nullptr`) and the size stored in `module_size`.
* `convert_to_wow64_path` and `make_dump_path` come from `util.h`, which is not among the sources.
* `hooks_scanRemote` answers the status and the patches it collected in the `PatchList`.
* `indeterminate idx` is what a read of `hMods[idx]` yields when the enumeration stored nothing
  there (an unfilled slot, or a slot past the end of the array). -/
structure World where
  OpenProcess : List Event → Nat → Nat × Nat
  set_debug_privilege : List Event → Nat → Bool
  IsWow64Process : List Event → Nat → Bool
  EnumProcessModulesEx : List Event → Nat → Nat → Nat → Bool × List Nat × Nat
  CreateDirectoryA : List Event → String → Bool × Nat
  GetModuleFileNameExA : List Event → Nat → Nat → Option String
  load_pe_module : List Event → String → Nat × Nat
  convert_to_wow64_path : String → Bool × String
  make_dump_path : Nat → String → String → String
  hollows_scanRemote : List Event → Nat → Nat → Nat → Nat → Int
  hooks_scanRemote : List Event → Nat → Nat → Nat → Nat → Int × List Nat
  dump_remote_pe : List Event → String → Nat → Nat → Bool → Bool → Bool
  indeterminate : Nat → Nat

/-! ## `std::map<ULONGLONG, std::string>` -/

/-- The assignment `m[k] = v` on a `std::map`, kept as a list sorted by key: the entry of `k` is
overwritten when there is one, and inserted at its place otherwise. -/
def map_assign : List (Nat × String) → Nat → String → List (Nat × String)
  | [], k, v => [(k, v)]
  | (k1, v1) :: rest, k, v =>
    if k < k1 then (k, v) :: (k1, v1) :: rest
    else if k = k1 then (k, v) :: rest
    else (k1, v1) :: map_assign rest k v

/-- The keys of a map, in iteration order. -/
def map_keys (m : List (Nat × String)) : List Nat := m.map Prod.fst

/-- The entry of key `k`, if there is one. -/
def map_lookup : List (Nat × String) → Nat → Option String
  | [], _ => none
  | (k1, v1) :: rest, k => if k = k1 then some v1 else map_lookup rest k

/-! ## Classes of events -/

/-- An attempt to open the process. -/
def Event.isOpen : Event → Bool
  | .OpenProcess _ _ _ => true
  | _ => false

/-- A call of the module enumeration. -/
def Event.isEnum : Event → Bool
  | .EnumProcessModulesEx _ _ _ _ _ => true
  | _ => false

/-- A load of a reference image. -/
def Event.isLoad : Event → Bool
  | .load_pe_module _ _ _ => true
  | _ => false

/-- A translation of a path to the Wow64 system directory. -/
def Event.isConvert : Event → Bool
  | .convert_to_wow64_path _ _ _ => true
  | _ => false

/-- A run of the hollowing comparator. -/
def Event.isHollow : Event → Bool
  | .hollows_scanRemote _ _ _ _ => true
  | _ => false

/-- A run of the hook comparator. -/
def Event.isHook : Event → Bool
  | .hooks_scanRemote _ _ _ _ _ => true
  | _ => false

/-- A dump attempt. -/
def Event.isDump : Event → Bool
  | .dump_remote_pe _ _ _ _ _ _ => true
  | _ => false

/-- A dump attempt for the module at `base`. -/
def Event.isDumpOf (base : Nat) : Event → Bool
  | .dump_remote_pe _ _ b _ _ _ => b == base
  | _ => false

/-- A dump attempt that succeeded. -/
def Event.isDumpOk : Event → Bool
  | .dump_remote_pe _ _ _ _ _ ok => ok
  | _ => false

/-- A call made before the loop starts: opening the process, elevation, the Wow64 query, the
enumeration, the creation of the output directory. -/
def Event.isSetup : Event → Bool
  | .OpenProcess _ _ _ => true
  | .set_debug_privilege _ _ => true
  | .IsWow64Process _ _ => true
  | .EnumProcessModulesEx _ _ _ _ _ => true
  | .CreateDirectoryA _ _ _ => true
  | _ => false

/-- A call made by the body of the loop: name lookup, load and release of a reference image,
path translation, the two comparators, the export lookup, the patch report. -/
def Event.isModuleCall : Event → Bool
  | .GetModuleFileNameExA _ _ _ => true
  | .load_pe_module _ _ _ => true
  | .free_pe_buffer _ _ => true
  | .convert_to_wow64_path _ _ _ => true
  | .hollows_scanRemote _ _ _ _ => true
  | .add_to_lookup _ _ _ => true
  | .hooks_scanRemote _ _ _ _ _ => true
  | .report_patches _ _ => true
  | _ => false

/-! ## `make_dump_dir`, `make_dir_name` -/

/-- The function `make_dump_dir`: the answer and the calls made. -/
def make_dump_dir (w : World) (tr : List Event) (directory : String) : Bool × List Event :=
  let r := w.CreateDirectoryA tr directory
  let ev := [Event.CreateDirectoryA directory r.1 r.2]
  if r.1 || r.2 == ERROR_ALREADY_EXISTS then (true, ev) else (false, ev)

/-- The function `make_dir_name`. -/
def make_dir_name (process_id : Nat) : String := "process_" ++ toString process_id

/-! ## `open_process` -/

/-- The function `open_process`: the handle returned (`0` for `nullptr`) and the calls made. -/
def open_process (w : World) (tr : List Event) (processID : Nat) : Nat × List Event :=
  let r1 := w.OpenProcess tr processID
  let ev1 := [Event.OpenProcess processID r1.1 r1.2]
  if r1.1 ≠ 0 then (r1.1, ev1)
  else
    let last_err := r1.2
    if last_err = ERROR_ACCESS_DENIED then
      let ok := w.set_debug_privilege (tr ++ ev1) processID
      let ev2 := ev1 ++ [Event.set_debug_privilege processID ok]
      if ok then
        let r2 := w.OpenProcess (tr ++ ev2) processID
        let ev3 := ev2 ++ [Event.OpenProcess processID r2.1 r2.2]
        if r2.1 ≠ 0 then (r2.1, ev3) else (0, ev3)
      else (0, ev2)
    else (r1.1, ev1)

/-! ## `enum_modules` -/

/-- What `enum_modules` leaves behind: the count it returns, the handles stored in the caller's
array, and the calls made. -/
structure EnumOut where
  modules_count : Nat
  hMods : List Nat
  events : List Event
  deriving DecidableEq, Repr

/-- The function `enum_modules`.  `cbNeeded` is a `DWORD`.  The call stores no more handles than
fit in the `hModsMax` bytes it is given. -/
def enum_modules (w : World) (win64 : Bool) (tr : List Event) (hProcess hModsMax filters : Nat) :
    EnumOut :=
  let r := w.EnumProcessModulesEx tr hProcess hModsMax filters
  let cbNeeded := r.2.2 % 2 ^ 32
  let hMods := r.2.1.take (hModsMax / sizeof_HMODULE win64)
  let ev1 := [Event.EnumProcessModulesEx hProcess hModsMax filters r.1 cbNeeded]
  if !r.1 then
    let isCurrWow64 := w.IsWow64Process (tr ++ ev1) (GetCurrentProcess win64)
    let ev2 := ev1 ++ [Event.IsWow64Process (GetCurrentProcess win64) isCurrWow64]
    let isRemoteWow64 := w.IsWow64Process (tr ++ ev2) hProcess
    let ev3 := ev2 ++ [Event.IsWow64Process hProcess isRemoteWow64]
    { modules_count := 0, hMods := hMods, events := ev3 }
  else
    { modules_count := cbNeeded / sizeof_HMODULE win64, hMods := hMods, events := ev1 }

/-! ## `dump_all_modified` -/

/-- The loop of `dump_all_modified` over the entries that remain, with the running count
`dumped`: the final count and the calls made. -/
def dump_loop (w : World) (processHandle : Nat) (exportsMap : Bool) :
    List (Nat × String) → Nat → List Event → Nat × List Event
  | [], dumped, _ => (dumped, [])
  | (modBaseAddr, dumpFileName) :: rest, dumped, tr =>
    let ok := w.dump_remote_pe tr dumpFileName processHandle modBaseAddr true exportsMap
    let ev := Event.dump_remote_pe dumpFileName processHandle modBaseAddr true exportsMap ok
    let r := dump_loop w processHandle exportsMap rest (if ok then dumped + 1 else dumped)
      (tr ++ [ev])
    (r.1, ev :: r.2)

/-- The function `dump_all_modified`: the count returned and the calls made. -/
def dump_all_modified (w : World) (tr : List Event) (processHandle : Nat)
    (modified_modules : List (Nat × String)) (exportsMap : Bool) : Nat × List Event :=
  dump_loop w processHandle exportsMap modified_modules 0 tr

/-! ## `check_modules_in_process` -/

/-- The locals of `check_modules_in_process` that are fixed once the loop starts. -/
structure ScanCtx where
  processHandle : Nat
  isWow64 : Bool
  hMods : List Nat
  modules_count : Nat
  directory : String
  exportsMap : Bool
  deriving DecidableEq, Repr

/-- The locals of `check_modules_in_process` that change in the loop, and the trace of the calls
made so far. -/
structure LoopState where
  i : Nat
  report : t_report
  modified_modules : List (Nat × String)
  trace : List Event
  deriving DecidableEq, Repr

/-- A read of `hMods[idx]`: the handle the enumeration stored there, or whatever the memory
holds when it stored none. -/
def read_hMods (w : World) (ctx : ScanCtx) (idx : Nat) : Nat :=
  match ctx.hMods[idx]? with
  | some h => h
  | none => w.indeterminate idx

/-- The locals of one iteration after the hollowing stage (lines 208 to 229), and the calls the
stage made. -/
structure HollowOut where
  szModName : String
  original_module : Nat
  module_size : Nat
  is_hollowed : Int
  report : t_report
  modified_modules : List (Nat × String)
  events : List Event
  deriving DecidableEq, Repr

/-- The reload of the reference inside `if (isWow64)` (lines 211 to 220): the new `szModName`,
`original_module` and `module_size`, and the calls made. -/
def wow64_reload (w : World) (ctx : ScanCtx) (szModName : String)
    (original_module module_size : Nat) (tr : List Event) :
    String × Nat × Nat × List Event :=
  if ctx.isWow64 then
    let conv := w.convert_to_wow64_path szModName
    let ev1 := [Event.convert_to_wow64_path szModName conv.1 conv.2,
      Event.free_pe_buffer original_module module_size]
    let ld := w.load_pe_module (tr ++ ev1) conv.2
    (conv.2, ld.1, ld.2, ev1 ++ [Event.load_pe_module conv.2 ld.1 ld.2])
  else (szModName, original_module, module_size, [])

/-- The hollowing stage of one iteration (lines 208 to 229). -/
def hollowing_stage (w : World) (c : ScanCodes) (ctx : ScanCtx) (report : t_report)
    (modified_modules : List (Nat × String)) (modBaseAddr : Nat)
    (dumpFileName szModName : String) (original_module module_size : Nat)
    (tr : List Event) : HollowOut :=
  let is_hollowed := w.hollows_scanRemote tr ctx.processHandle modBaseAddr original_module
    module_size
  let ev1 := [Event.hollows_scanRemote modBaseAddr original_module module_size is_hollowed]
  if is_hollowed = c.SCAN_MODIFIED then
    let rl := wow64_reload w ctx szModName original_module module_size (tr ++ ev1)
    let ev2 := ev1 ++ rl.2.2.2
    let is_hollowed2 := w.hollows_scanRemote (tr ++ ev2) ctx.processHandle modBaseAddr rl.2.1
      rl.2.2.1
    let ev3 := ev2 ++ [Event.hollows_scanRemote modBaseAddr rl.2.1 rl.2.2.1 is_hollowed2]
    if is_hollowed2 ≠ 0 then
      { szModName := rl.1, original_module := rl.2.1, module_size := rl.2.2.1,
        is_hollowed := is_hollowed2,
        report := { report with replaced := report.replaced + 1 },
        modified_modules := map_assign modified_modules modBaseAddr dumpFileName,
        events := ev3 }
    else
      { szModName := rl.1, original_module := rl.2.1, module_size := rl.2.2.1,
        is_hollowed := is_hollowed2, report := report,
        modified_modules := modified_modules, events := ev3 }
  else
    { szModName := szModName, original_module := original_module, module_size := module_size,
      is_hollowed := is_hollowed, report := report, modified_modules := modified_modules,
      events := ev1 }

/-- The export lookup of one iteration (lines 230 to 232): the calls made. -/
def lookup_stage (ctx : ScanCtx) (modBaseAddr : Nat) (h : HollowOut) : List Event :=
  if ctx.exportsMap then [Event.add_to_lookup h.szModName h.original_module modBaseAddr]
  else []

/-- What a part of one iteration leaves behind: the report, the modified set and the calls
made. -/
structure ModuleOut where
  report : t_report
  modified_modules : List (Nat × String)
  events : List Event
  deriving DecidableEq, Repr

/-- The hook stage of one iteration (lines 233 to 248).  The `is_hooked` declared at line 237 is
local to this block. -/
def hook_stage (w : World) (c : ScanCodes) (args : t_params) (ctx : ScanCtx)
    (modBaseAddr : Nat) (dumpFileName : String) (h : HollowOut) (tr : List Event) : ModuleOut :=
  if h.is_hollowed = c.SCAN_NOT_MODIFIED then
    let r := w.hooks_scanRemote tr ctx.processHandle modBaseAddr h.original_module h.module_size
    let is_hooked := r.1
    let ev1 := [Event.hooks_scanRemote modBaseAddr h.original_module h.module_size r.1 r.2]
    if is_hooked = c.SCAN_MODIFIED then
      let ev2 := if !args.quiet then ev1 ++ [Event.report_patches r.2 (dumpFileName ++ ".tag")]
        else ev1
      { report := { h.report with hooked := h.report.hooked + 1 },
        modified_modules := map_assign h.modified_modules modBaseAddr dumpFileName,
        events := ev2 }
    else { report := h.report, modified_modules := h.modified_modules, events := ev1 }
  else { report := h.report, modified_modules := h.modified_modules, events := [] }

/-- The locals of one iteration after the name resolution and the first load (lines 179 to
198), and the calls made. -/
structure LoadOut where
  is_module_named : Bool
  szModName : String
  modBaseAddr : Nat
  dumpFileName : String
  original_module : Nat
  module_size : Nat
  events : List Event
  deriving DecidableEq, Repr

/-- The name resolution and the first load of one iteration (lines 179 to 198). -/
def load_stage (w : World) (ctx : ScanCtx) (s : LoopState) : LoadOut :=
  let name := w.GetModuleFileNameExA s.trace ctx.processHandle (read_hMods w ctx s.report.scanned)
  let ev1 :=
    [Event.GetModuleFileNameExA ctx.processHandle (read_hMods w ctx s.report.scanned) name]
  let is_module_named := name.isSome
  let szModName := name.getD "unnamed"
  let modBaseAddr := read_hMods w ctx s.i
  let dumpFileName := w.make_dump_path modBaseAddr szModName ctx.directory
  if is_module_named then
    let ld := w.load_pe_module (s.trace ++ ev1) szModName
    { is_module_named := is_module_named, szModName := szModName, modBaseAddr := modBaseAddr,
      dumpFileName := dumpFileName, original_module := ld.1, module_size := ld.2,
      events := ev1 ++ [Event.load_pe_module szModName ld.1 ld.2] }
  else
    { is_module_named := is_module_named, szModName := szModName, modBaseAddr := modBaseAddr,
      dumpFileName := dumpFileName, original_module := 0, module_size := 0, events := ev1 }

/-- The rest of one iteration once the reference image is loaded (lines 205 to 253).  The
history `tr` holds the calls made before, those of `load_stage` included. -/
def check_stage (w : World) (c : ScanCodes) (args : t_params) (ctx : ScanCtx)
    (report : t_report) (modified_modules : List (Nat × String)) (l : LoadOut)
    (tr : List Event) : ModuleOut :=
  let is_hooked := c.SCAN_NOT_MODIFIED
  let h := hollowing_stage w c ctx report modified_modules l.modBaseAddr l.dumpFileName
    l.szModName l.original_module l.module_size tr
  let ev1 := h.events ++ lookup_stage ctx l.modBaseAddr h
  let k := hook_stage w c args ctx l.modBaseAddr l.dumpFileName h (tr ++ ev1)
  let ev2 := ev1 ++ k.events
  let report := if h.is_hollowed = c.SCAN_ERROR ∨ is_hooked = c.SCAN_ERROR
    then { k.report with errors := k.report.errors + 1 } else k.report
  { report := report,
    modified_modules := k.modified_modules,
    events := ev2 ++ [Event.free_pe_buffer h.original_module h.module_size] }

/-- The body of the loop of `check_modules_in_process` (lines 179 to 253), entered with a
non-null handle. -/
def scan_module (w : World) (c : ScanCodes) (args : t_params) (ctx : ScanCtx) (s : LoopState) :
    ModuleOut :=
  let l := load_stage w ctx s
  if l.original_module = 0 then
    { report := { s.report with suspicious := s.report.suspicious + 1 },
      modified_modules := map_assign s.modified_modules l.modBaseAddr l.dumpFileName,
      events := l.events }
  else
    let m := check_stage w c args ctx s.report s.modified_modules l (s.trace ++ l.events)
    { report := m.report, modified_modules := m.modified_modules,
      events := l.events ++ m.events }

/-- One iteration followed by the increment `i++, report.scanned++` of the loop header. -/
def loop_step (w : World) (c : ScanCodes) (args : t_params) (ctx : ScanCtx) (s : LoopState) :
    LoopState :=
  let m := scan_module w c args ctx s
  { i := s.i + 1,
    report := { m.report with scanned := m.report.scanned + 1 },
    modified_modules := m.modified_modules,
    trace := s.trace ++ m.events }

/-- The loop of `check_modules_in_process` (lines 176 to 254), run for at most `fuel`
iterations. -/
def scan_loop (w : World) (c : ScanCodes) (args : t_params) (ctx : ScanCtx) :
    Nat → LoopState → LoopState
  | 0, s => s
  | fuel + 1, s =>
    if s.i < ctx.modules_count then
      if ctx.processHandle = 0 then s
      else scan_loop w c args ctx fuel (loop_step w c args ctx s)
    else s

/-- What a run of `check_modules_in_process` leaves behind: the report returned, the modified set
as it was when the function returned, and the trace of all calls. -/
structure Run where
  report : t_report
  modified_modules : List (Nat × String)
  trace : List Event
  deriving DecidableEq, Repr

/-- Lines 148 to 151: the flag `isWow64` and the calls made.  The call is compiled in only when
`_WIN64` is defined. -/
def scan_wow64 (w : World) (win64 : Bool) (tr : List Event) (processHandle : Nat) :
    Bool × List Event :=
  if win64 then
    (w.IsWow64Process tr processHandle,
      [Event.IsWow64Process processHandle (w.IsWow64Process tr processHandle)])
  else (false, [])

/-- The part of `check_modules_in_process` before the loop (lines 140 to 175): either the early
return, or the locals with which the loop is entered. -/
def scan_begin (w : World) (win64 : Bool) (args : t_params) : Run ⊕ (ScanCtx × LoopState) :=
  let report : t_report :=
    { pid := args.pid, scanned := 0, hooked := 0, replaced := 0, suspicious := 0, errors := 0 }
  let o := open_process w [] args.pid
  let processHandle := o.1
  if processHandle = 0 then
    Sum.inl { report := { report with errors := report.errors + 1 }, modified_modules := [],
              trace := o.2 }
  else
    let x := scan_wow64 w win64 o.2 processHandle
    let isWow64 := x.1
    let tr1 := o.2 ++ x.2
    let e := enum_modules w win64 tr1 processHandle (sizeof_hMods win64) args.filter
    let tr2 := tr1 ++ e.events
    if e.modules_count = 0 then
      Sum.inl { report := { report with errors := report.errors + 1 }, modified_modules := [],
                trace := tr2 }
    else
      let directory := make_dir_name args.pid
      let d := if !args.quiet then make_dump_dir w tr2 directory else (true, [])
      let directory := if !args.quiet && !d.1 then "" else directory
      Sum.inr
        ({ processHandle := processHandle, isWow64 := isWow64, hMods := e.hMods,
           modules_count := e.modules_count, directory := directory,
           exportsMap := args.imp_rec },
         { i := 0, report := { report with scanned := 0 }, modified_modules := [],
           trace := tr2 ++ d.2 })

/-- The part of `check_modules_in_process` after the loop (lines 255 to 262). -/
def scan_end (w : World) (args : t_params) (ctx : ScanCtx) (s : LoopState) : Run :=
  if !args.no_dump && !args.quiet then
    let d := dump_all_modified w s.trace ctx.processHandle s.modified_modules ctx.exportsMap
    { report := s.report, modified_modules := s.modified_modules, trace := s.trace ++ d.2 }
  else
    { report := s.report, modified_modules := s.modified_modules, trace := s.trace }

/-- A run of `check_modules_in_process` with `fuel` iterations allowed to the loop. -/
def check_modules_run_fuel (w : World) (c : ScanCodes) (win64 : Bool) (args : t_params)
    (fuel : Nat) : Run :=
  match scan_begin w win64 args with
  | Sum.inl r => r
  | Sum.inr (ctx, s0) => scan_end w args ctx (scan_loop w c args ctx fuel s0)

/-- The number of iterations the loop of a run can need: the module count. -/
def loop_bound (w : World) (win64 : Bool) (args : t_params) : Nat :=
  match scan_begin w win64 args with
  | Sum.inl _ => 0
  | Sum.inr (ctx, _) => ctx.modules_count

/-- A run of `check_modules_in_process`. -/
def check_modules_run (w : World) (c : ScanCodes) (win64 : Bool) (args : t_params) : Run :=
  check_modules_run_fuel w c win64 args (loop_bound w win64 args)

/-- The function `check_modules_in_process`. -/
def check_modules_in_process (w : World) (c : ScanCodes) (win64 : Bool) (args : t_params) :
    t_report :=
  (check_modules_run w c win64 args).report

/-- The sum `total_modified` that `report_to_string` prints (line 284). -/
def total_modified (report : t_report) : Nat :=
  report.hooked + report.replaced + report.suspicious

/-! ## Concrete inputs -/

/-- The numbering error = -1, not modified = 0, modified = 1 of `t_scan_status`. -/
def stdCodes : ScanCodes := { SCAN_ERROR := -1, SCAN_NOT_MODIFIED := 0, SCAN_MODIFIED := 1 }

/-- Scan parameters: pid 1234, import reconstruction on, dumping on, not quiet. -/
def someArgs : t_params :=
  { pid := 1234, filter := 3, imp_rec := true, no_dump := false, quiet := false }

/-- A target with one unmodified module at `0x400000`, not a Wow64 process; every collaborator
succeeds. -/
def cleanWorld : World where
  OpenProcess := fun _ _ => (7, 0)
  set_debug_privilege := fun _ _ => false
  IsWow64Process := fun _ _ => false
  EnumProcessModulesEx := fun _ _ _ _ => (true, [4194304], 8)
  CreateDirectoryA := fun _ _ => (true, 0)
  GetModuleFileNameExA := fun _ _ _ => some "a.dll"
  load_pe_module := fun _ _ => (4096, 512)
  convert_to_wow64_path := fun p => (true, p ++ "64")
  make_dump_path := fun modBaseAddr name directory =>
    directory ++ "/" ++ toString modBaseAddr ++ "_" ++ name
  hollows_scanRemote := fun _ _ _ _ _ => 0
  hooks_scanRemote := fun _ _ _ _ _ => (0, [])
  dump_remote_pe := fun _ _ _ _ _ _ => true
  indeterminate := fun idx => 3131961344 + idx

/-- The open is denied and the elevation fails. -/
def deniedWorld : World :=
  { cleanWorld with OpenProcess := fun _ _ => (0, 5) }

/-- The enumeration fails. -/
def emptyWorld : World :=
  { cleanWorld with EnumProcessModulesEx := fun _ _ _ _ => (false, [], 0) }

/-- The hook comparator reports an error for the only module. -/
def hookErrorWorld : World :=
  { cleanWorld with hooks_scanRemote := fun _ _ _ _ _ => (-1, []) }

/-- The hollowing comparator answers modified at its first call and error afterwards. -/
def rescanErrorWorld : World :=
  { cleanWorld with
    hollows_scanRemote := fun tr _ _ _ _ => if tr.any Event.isHollow then -1 else 1 }

/-- A native 64-bit target whose only module is reported modified by every hollowing
comparison. -/
def nativeReplacedWorld : World :=
  { cleanWorld with hollows_scanRemote := fun _ _ _ _ _ => 1 }

/-- A Wow64 target whose only module is reported modified by every hollowing comparison. -/
def wow64World : World :=
  { cleanWorld with
    IsWow64Process := fun _ _ => true
    hollows_scanRemote := fun _ _ _ _ _ => 1 }

/-- The loop context of a scan of `wow64World` by a 64-bit build. -/
def wow64Ctx : ScanCtx :=
  { processHandle := 7, isWow64 := true, hMods := [4194304], modules_count := 1,
    directory := "process_1234", exportsMap := true }

/-- The loop state with which a scan of `wow64World` by a 64-bit build enters the loop. -/
def wow64Start : LoopState :=
  { i := 0,
    report := { pid := 1234, scanned := 0, hooked := 0, replaced := 0, suspicious := 0,
                errors := 0 },
    modified_modules := [],
    trace := [Event.OpenProcess 1234 7 0, Event.IsWow64Process 7 true,
      Event.EnumProcessModulesEx 7 8192 3 true 8, Event.CreateDirectoryA "process_1234" true 0] }

/-- A Wow64 target: the reference of the only module loads from the native path, the first
hollowing comparison answers modified, and the load from the translated path fails.  A
comparator handed a null reference answers not modified. -/
def reloadFailsWorld : World :=
  { cleanWorld with
    IsWow64Process := fun _ _ => true
    load_pe_module := fun _ path => if path = "a.dll" then (4096, 512) else (0, 0)
    hollows_scanRemote := fun _ _ _ buffer _ => if buffer = 0 then 0 else 1 }

/-- A target with 1025 modules: the enumeration succeeds, fills the 1024 slots it was given and
reports the `1025 * 8` bytes that all handles need. -/
def crowdedWorld : World :=
  { cleanWorld with
    EnumProcessModulesEx := fun _ _ _ _ =>
      (true, (List.range 1024).map (fun k => 65536 * (k + 1)), 8200) }

/-- The loop context of a scan of `crowdedWorld` by a 64-bit build. -/
def crowdedCtx : ScanCtx :=
  { processHandle := 7, isWow64 := false,
    hMods := (List.range 1024).map (fun k => 65536 * (k + 1)), modules_count := 1025,
    directory := "process_1234", exportsMap := true }

/-- The loop state with which a scan of `crowdedWorld` by a 64-bit build enters the loop. -/
def crowdedStart : LoopState :=
  { i := 0,
    report := { pid := 1234, scanned := 0, hooked := 0, replaced := 0, suspicious := 0,
                errors := 0 },
    modified_modules := [],
    trace := [Event.OpenProcess 1234 7 0, Event.IsWow64Process 7 false,
      Event.EnumProcessModulesEx 7 8192 3 true 8200,
      Event.CreateDirectoryA "process_1234" true 0] }

/-- A target with four modules: the first is unmodified, the second is reported modified by
the hollowing comparator, the third is hooked with three patches, the name of the fourth is not
resolved. -/
def mixedWorld : World :=
  { cleanWorld with
    EnumProcessModulesEx := fun _ _ _ _ => (true, [65536, 131072, 196608, 262144], 32)
    GetModuleFileNameExA := fun _ _ hModule =>
      if hModule = 262144 then none else some "m.dll"
    hollows_scanRemote := fun _ _ modBaseAddr _ _ => if modBaseAddr = 131072 then 1 else 0
    hooks_scanRemote := fun _ _ modBaseAddr _ _ =>
      if modBaseAddr = 196608 then (1, [1, 2, 3]) else (0, []) }

/-- The loop context of a scan of `mixedWorld` by a 64-bit build. -/
def mixedCtx : ScanCtx :=
  { processHandle := 7, isWow64 := false, hMods := [65536, 131072, 196608, 262144],
    modules_count := 4, directory := "process_1234", exportsMap := true }

/-- The loop state with which a scan of `mixedWorld` by a 64-bit build enters the loop. -/
def mixedStart : LoopState :=
  { i := 0,
    report := { pid := 1234, scanned := 0, hooked := 0, replaced := 0, suspicious := 0,
                errors := 0 },
    modified_modules := [],
    trace := [Event.OpenProcess 1234 7 0, Event.IsWow64Process 7 false,
      Event.EnumProcessModulesEx 7 8192 3 true 32,
      Event.CreateDirectoryA "process_1234" true 0] }

/-- As `mixedWorld`, but the dump of the module at `0x30000` fails. -/
def dumpFailsWorld : World :=
  { mixedWorld with
    dump_remote_pe := fun _ _ _ modBaseAddr _ _ => !(modBaseAddr == 196608) }

/-- A modified set with three entries. -/
def sampleSet : List (Nat × String) :=
  [(131072, "a.dmp"), (196608, "b.dmp"), (262144, "c.dmp")]

/-! # Theorems -/

/-! ## `open_process` -/

/-- A call made before the loop is no load, translation, comparison, lookup or dump. -/
theorem isSetup_excludes (e : Event) (h : e.isSetup = true) :
    e.isLoad = false ∧ e.isConvert = false ∧ e.isHollow = false ∧ e.isHook = false ∧
      e.isDump = false := by
  cases e <;> simp_all [Event.isSetup, Event.isLoad, Event.isConvert, Event.isHollow,
    Event.isHook, Event.isDump]

/-- The calls of `open_process` are opens and elevations. -/
theorem open_process_events (w : World) (tr : List Event) (pid : Nat) :
    ∀ e ∈ (open_process w tr pid).2, e.isSetup = true ∧ e.isEnum = false := by
  unfold open_process
  simp only []
  split_ifs <;> simp [Event.isSetup, Event.isEnum]

/-- The calls of `scan_wow64` are setup calls. -/
theorem scan_wow64_events (w : World) (win64 : Bool) (tr : List Event) (h : Nat) :
    ∀ e ∈ (scan_wow64 w win64 tr h).2, e.isSetup = true := by
  unfold scan_wow64
  split_ifs <;> simp [Event.isSetup]

/-- The calls of `enum_modules` are setup calls. -/
theorem enum_modules_events (w : World) (win64 : Bool) (tr : List Event) (h cb f : Nat) :
    ∀ e ∈ (enum_modules w win64 tr h cb f).events, e.isSetup = true := by
  unfold enum_modules
  simp only []
  split_ifs <;> simp [Event.isSetup]

/-- The calls of `make_dump_dir` are setup calls. -/
theorem make_dump_dir_events (w : World) (tr : List Event) (d : String) :
    ∀ e ∈ (make_dump_dir w tr d).2, e.isSetup = true := by
  unfold make_dump_dir
  simp only []
  split_ifs <;> simp [Event.isSetup]

/-- C1: both fatal cases give the error-only report.  When `open_process` fails, the report has
the pid of the parameters, `errors = 1` and every other counter zero, and the run makes no
enumeration, load, comparison or dump call.  When the open succeeds and `enum_modules` returns 0,
the report is the same and the run makes no load, comparison or dump call. -/
theorem check_modules_fatal (w : World) (c : ScanCodes) (win64 : Bool) (args : t_params) :
    ((open_process w [] args.pid).1 = 0 →
      check_modules_in_process w c win64 args =
        { pid := args.pid, scanned := 0, hooked := 0, replaced := 0, suspicious := 0,
          errors := 1 } ∧
      ∀ e ∈ (check_modules_run w c win64 args).trace,
        e.isEnum = false ∧ e.isLoad = false ∧ e.isHollow = false ∧ e.isHook = false ∧
          e.isDump = false) ∧
    ((open_process w [] args.pid).1 ≠ 0 →
      (enum_modules w win64
        ((open_process w [] args.pid).2 ++
          (scan_wow64 w win64 (open_process w [] args.pid).2 (open_process w [] args.pid).1).2)
        (open_process w [] args.pid).1 (sizeof_hMods win64) args.filter).modules_count = 0 →
      check_modules_in_process w c win64 args =
        { pid := args.pid, scanned := 0, hooked := 0, replaced := 0, suspicious := 0,
          errors := 1 } ∧
      ∀ e ∈ (check_modules_run w c win64 args).trace,
        e.isLoad = false ∧ e.isHollow = false ∧ e.isHook = false ∧ e.isDump = false) := by
  constructor
  · intro h
    have hb : scan_begin w win64 args = Sum.inl
        { report := { pid := args.pid, scanned := 0, hooked := 0, replaced := 0,
                      suspicious := 0, errors := 1 },
          modified_modules := [], trace := (open_process w [] args.pid).2 } := by
      unfold scan_begin
      simp [h]
    refine ⟨?_, ?_⟩
    · simp [check_modules_in_process, check_modules_run, check_modules_run_fuel, hb]
    · intro e he
      simp only [check_modules_run, check_modules_run_fuel, hb] at he
      have h1 := open_process_events w [] args.pid e he
      have h2 := isSetup_excludes e h1.1
      exact ⟨h1.2, h2.1, h2.2.2.1, h2.2.2.2.1, h2.2.2.2.2⟩
  · intro h h0
    have hb : scan_begin w win64 args = Sum.inl
        { report := { pid := args.pid, scanned := 0, hooked := 0, replaced := 0,
                      suspicious := 0, errors := 1 },
          modified_modules := [],
          trace := (open_process w [] args.pid).2 ++
            (scan_wow64 w win64 (open_process w [] args.pid).2 (open_process w [] args.pid).1).2
            ++ (enum_modules w win64
              ((open_process w [] args.pid).2 ++
                (scan_wow64 w win64 (open_process w [] args.pid).2
                  (open_process w [] args.pid).1).2)
              (open_process w [] args.pid).1 (sizeof_hMods win64) args.filter).events } := by
      unfold scan_begin
      simp [h, h0]
    refine ⟨?_, ?_⟩
    · simp [check_modules_in_process, check_modules_run, check_modules_run_fuel, hb]
    · intro e he
      simp only [check_modules_run, check_modules_run_fuel, hb, List.mem_append] at he
      have h1 : e.isSetup = true := by
        rcases he with (he | he) | he
        · exact (open_process_events w [] args.pid e he).1
        · exact scan_wow64_events _ _ _ _ e he
        · exact enum_modules_events _ _ _ _ _ _ e he
      have h2 := isSetup_excludes e h1
      exact ⟨h2.1, h2.2.2.1, h2.2.2.2.1, h2.2.2.2.2⟩


/-! ## The counters of one iteration -/

/-- The hollowing stage leaves the report alone or adds one to `replaced`; in the second case the
status it leaves in `is_hollowed` is not zero. -/
theorem hollowing_stage_report (w : World) (c : ScanCodes) (ctx : ScanCtx) (report : t_report)
    (mm : List (Nat × String)) (base : Nat) (dump nm : String) (p sz : Nat) (tr : List Event) :
    (hollowing_stage w c ctx report mm base dump nm p sz tr).report = report ∨
    ((hollowing_stage w c ctx report mm base dump nm p sz tr).report =
        { report with replaced := report.replaced + 1 } ∧
      (hollowing_stage w c ctx report mm base dump nm p sz tr).is_hollowed ≠ 0) := by
  unfold hollowing_stage
  simp only []
  split_ifs <;> simp_all

/-- The hook stage leaves the report alone or adds one to `hooked`; in the second case the
hollowing status was `SCAN_NOT_MODIFIED`. -/
theorem hook_stage_report (w : World) (c : ScanCodes) (args : t_params) (ctx : ScanCtx)
    (base : Nat) (dump : String) (h : HollowOut) (tr : List Event) :
    (hook_stage w c args ctx base dump h tr).report = h.report ∨
    ((hook_stage w c args ctx base dump h tr).report =
        { h.report with hooked := h.report.hooked + 1 } ∧
      h.is_hollowed = c.SCAN_NOT_MODIFIED) := by
  unfold hook_stage
  simp only []
  split_ifs <;> simp_all

/-- The counters after the checks of a loaded module, when `SCAN_NOT_MODIFIED` is the zero of
the enumeration: `pid`, `scanned` and `suspicious` are untouched, at most one of `hooked` and
`replaced` grows, by one, and `errors` grows by at most one. -/
theorem check_stage_report (w : World) (c : ScanCodes) (args : t_params) (ctx : ScanCtx)
    (report : t_report) (mm : List (Nat × String)) (l : LoadOut) (tr : List Event)
    (h0 : c.SCAN_NOT_MODIFIED = 0) :
    (check_stage w c args ctx report mm l tr).report.pid = report.pid ∧
    (check_stage w c args ctx report mm l tr).report.scanned = report.scanned ∧
    (check_stage w c args ctx report mm l tr).report.suspicious = report.suspicious ∧
    (((check_stage w c args ctx report mm l tr).report.hooked = report.hooked ∧
        (check_stage w c args ctx report mm l tr).report.replaced = report.replaced) ∨
      ((check_stage w c args ctx report mm l tr).report.hooked = report.hooked + 1 ∧
        (check_stage w c args ctx report mm l tr).report.replaced = report.replaced) ∨
      ((check_stage w c args ctx report mm l tr).report.hooked = report.hooked ∧
        (check_stage w c args ctx report mm l tr).report.replaced = report.replaced + 1)) ∧
    ((check_stage w c args ctx report mm l tr).report.errors = report.errors ∨
      (check_stage w c args ctx report mm l tr).report.errors = report.errors + 1) := by
  unfold check_stage
  simp only []
  generalize hh : hollowing_stage w c ctx report mm l.modBaseAddr l.dumpFileName l.szModName
    l.original_module l.module_size tr = h
  have h1 := hollowing_stage_report w c ctx report mm l.modBaseAddr l.dumpFileName l.szModName
    l.original_module l.module_size tr
  rw [hh] at h1
  generalize hk : hook_stage w c args ctx l.modBaseAddr l.dumpFileName h
    (tr ++ (h.events ++ lookup_stage ctx l.modBaseAddr h)) = k
  have h2 := hook_stage_report w c args ctx l.modBaseAddr l.dumpFileName h
    (tr ++ (h.events ++ lookup_stage ctx l.modBaseAddr h))
  rw [hk] at h2
  rcases h1 with h1 | ⟨h1, h1n⟩ <;> rcases h2 with h2 | ⟨h2, h2n⟩ <;>
    split_ifs <;> simp_all

/-- The counters after one iteration, when `SCAN_NOT_MODIFIED` is the zero of the enumeration:
`pid` and `scanned` are untouched, at most one of `hooked`, `replaced`, `suspicious` grows, by
one, and `errors` grows by at most one. -/
theorem scan_module_report (w : World) (c : ScanCodes) (args : t_params) (ctx : ScanCtx)
    (s : LoopState) (h0 : c.SCAN_NOT_MODIFIED = 0) :
    (scan_module w c args ctx s).report.pid = s.report.pid ∧
    (scan_module w c args ctx s).report.scanned = s.report.scanned ∧
    (((scan_module w c args ctx s).report.hooked = s.report.hooked ∧
        (scan_module w c args ctx s).report.replaced = s.report.replaced ∧
        (scan_module w c args ctx s).report.suspicious = s.report.suspicious) ∨
      ((scan_module w c args ctx s).report.hooked = s.report.hooked + 1 ∧
        (scan_module w c args ctx s).report.replaced = s.report.replaced ∧
        (scan_module w c args ctx s).report.suspicious = s.report.suspicious) ∨
      ((scan_module w c args ctx s).report.hooked = s.report.hooked ∧
        (scan_module w c args ctx s).report.replaced = s.report.replaced + 1 ∧
        (scan_module w c args ctx s).report.suspicious = s.report.suspicious) ∨
      ((scan_module w c args ctx s).report.hooked = s.report.hooked ∧
        (scan_module w c args ctx s).report.replaced = s.report.replaced ∧
        (scan_module w c args ctx s).report.suspicious = s.report.suspicious + 1)) ∧
    ((scan_module w c args ctx s).report.errors = s.report.errors ∨
      (scan_module w c args ctx s).report.errors = s.report.errors + 1) := by
  unfold scan_module
  simp only []
  split_ifs with hld
  · simp
  · have h := check_stage_report w c args ctx s.report s.modified_modules (load_stage w ctx s)
      (s.trace ++ (load_stage w ctx s).events) h0
    obtain ⟨a, b, d, e, f⟩ := h
    refine ⟨a, b, ?_, f⟩
    rcases e with e | e | e
    · exact Or.inl ⟨e.1, e.2, d⟩
    · exact Or.inr (Or.inl ⟨e.1, e.2, d⟩)
    · exact Or.inr (Or.inr (Or.inl ⟨e.1, e.2, d⟩))


/-- No iteration touches `pid` or `scanned` (the loop header increments `scanned`). -/
theorem scan_module_scanned (w : World) (c : ScanCodes) (args : t_params) (ctx : ScanCtx)
    (s : LoopState) :
    (scan_module w c args ctx s).report.pid = s.report.pid ∧
    (scan_module w c args ctx s).report.scanned = s.report.scanned := by
  unfold scan_module
  simp only []
  split_ifs with hld
  · simp
  · unfold check_stage
    simp only []
    generalize hh : hollowing_stage w c ctx s.report s.modified_modules
      (load_stage w ctx s).modBaseAddr (load_stage w ctx s).dumpFileName
      (load_stage w ctx s).szModName (load_stage w ctx s).original_module
      (load_stage w ctx s).module_size (s.trace ++ (load_stage w ctx s).events) = h
    have h1 := hollowing_stage_report w c ctx s.report s.modified_modules
      (load_stage w ctx s).modBaseAddr (load_stage w ctx s).dumpFileName
      (load_stage w ctx s).szModName (load_stage w ctx s).original_module
      (load_stage w ctx s).module_size (s.trace ++ (load_stage w ctx s).events)
    rw [hh] at h1
    have h2 := hook_stage_report w c args ctx (load_stage w ctx s).modBaseAddr
      (load_stage w ctx s).dumpFileName h
      (s.trace ++ (load_stage w ctx s).events ++
        (h.events ++ lookup_stage ctx (load_stage w ctx s).modBaseAddr h))
    rcases h1 with h1 | ⟨h1, _⟩ <;> rcases h2 with h2 | ⟨h2, _⟩ <;>
      split_ifs <;> simp_all

/-! ## The loop -/

/-- While modules remain, one more unit of fuel runs one more iteration. -/
theorem scan_loop_succ (w : World) (c : ScanCodes) (args : t_params) (ctx : ScanCtx)
    (hh : ctx.processHandle ≠ 0) :
    ∀ (j : Nat) (s : LoopState), s.i + j < ctx.modules_count →
      scan_loop w c args ctx (j + 1) s = loop_step w c args ctx (scan_loop w c args ctx j s) := by
  intro j
  induction j with
  | zero =>
    intro s hs
    have : s.i < ctx.modules_count := by omega
    simp [scan_loop, this, hh]
  | succ j ih =>
    intro s hs
    have h1 : s.i < ctx.modules_count := by omega
    have h2 : (loop_step w c args ctx s).i + j < ctx.modules_count := by
      simp only [loop_step]; omega
    have e1 : scan_loop w c args ctx (j + 1 + 1) s =
        scan_loop w c args ctx (j + 1) (loop_step w c args ctx s) := by
      conv_lhs => unfold scan_loop
      simp [h1, hh]
    have e2 : scan_loop w c args ctx (j + 1) s =
        scan_loop w c args ctx j (loop_step w c args ctx s) := by
      conv_lhs => unfold scan_loop
      simp [h1, hh]
    rw [e1, ih _ h2, e2]

/-- After `j` iterations the index has advanced by `j`. -/
theorem scan_loop_index (w : World) (c : ScanCodes) (args : t_params) (ctx : ScanCtx)
    (hh : ctx.processHandle ≠ 0) :
    ∀ (j : Nat) (s : LoopState), s.i + j ≤ ctx.modules_count →
      (scan_loop w c args ctx j s).i = s.i + j := by
  intro j
  induction j with
  | zero => intro s _; simp [scan_loop]
  | succ j ih =>
    intro s hs
    rw [scan_loop_succ w c args ctx hh j s (by omega)]
    simp only [loop_step]
    rw [ih s (by omega)]
    omega

/-- The loop keeps `report.scanned` equal to the index `i`. -/
theorem scan_loop_scanned (w : World) (c : ScanCodes) (args : t_params) (ctx : ScanCtx)
    (hh : ctx.processHandle ≠ 0) :
    ∀ (j : Nat) (s : LoopState), s.i + j ≤ ctx.modules_count → s.report.scanned = s.i →
      (scan_loop w c args ctx j s).report.scanned = s.i + j := by
  intro j
  induction j with
  | zero => intro s _ h; simp [scan_loop, h]
  | succ j ih =>
    intro s hs h
    rw [scan_loop_succ w c args ctx hh j s (by omega)]
    simp only [loop_step]
    rw [(scan_module_scanned w c args ctx _).2, ih s (by omega) h]
    omega

/-- Fuel beyond the number of modules that remain changes nothing: the loop has left through
its condition. -/
theorem scan_loop_enough (w : World) (c : ScanCodes) (args : t_params) (ctx : ScanCtx)
    (k : Nat) :
    ∀ (j : Nat) (s : LoopState), s.i + j = ctx.modules_count →
      scan_loop w c args ctx (j + k) s = scan_loop w c args ctx j s := by
  intro j
  induction j with
  | zero =>
    intro s hs
    have : ¬ s.i < ctx.modules_count := by omega
    cases k with
    | zero => rfl
    | succ k => simp [scan_loop, this]
  | succ j ih =>
    intro s hs
    have h1 : s.i < ctx.modules_count := by omega
    have e : j + 1 + k = (j + k) + 1 := by omega
    rw [e]
    unfold scan_loop
    simp only [h1, if_true]
    split_ifs with h0
    · rfl
    · exact ih _ (by simp only [loop_step]; omega)

/-- What `scan_begin` guarantees when the loop is entered. -/
theorem scan_begin_ready (w : World) (win64 : Bool) (args : t_params) (ctx : ScanCtx)
    (s0 : LoopState) (hb : scan_begin w win64 args = Sum.inr (ctx, s0)) :
    ctx.processHandle ≠ 0 ∧ ctx.modules_count ≠ 0 ∧ s0.i = 0 ∧
      s0.report = { pid := args.pid, scanned := 0, hooked := 0, replaced := 0,
                    suspicious := 0, errors := 0 } ∧
      s0.modified_modules = [] ∧ ctx.exportsMap = args.imp_rec ∧
      (∀ e ∈ s0.trace, e.isSetup = true) := by
  unfold scan_begin at hb
  simp only [] at hb
  split_ifs at hb with h1 h2 h3 h4 h5
  all_goals
    simp only [Sum.inr.injEq, Prod.mk.injEq] at hb
    obtain ⟨hc, hs⟩ := hb
    subst hc hs
    refine ⟨h1, h2, rfl, rfl, rfl, rfl, ?_⟩
    intro e he
    simp only [List.mem_append] at he
    rcases he with ((he | he) | he) | he
    · exact (open_process_events w [] args.pid e he).1
    · exact scan_wow64_events _ _ _ _ e he
    · exact enum_modules_events _ _ _ _ _ _ e he
    · first
        | exact make_dump_dir_events _ _ _ e he
        | simp at he

/-- A run that enters the loop is the loop run to its end followed by the dump pass. -/
theorem check_modules_run_ready (w : World) (c : ScanCodes) (win64 : Bool) (args : t_params)
    (ctx : ScanCtx) (s0 : LoopState) (hb : scan_begin w win64 args = Sum.inr (ctx, s0)) :
    check_modules_run w c win64 args =
      scan_end w args ctx (scan_loop w c args ctx ctx.modules_count s0) := by
  simp [check_modules_run, check_modules_run_fuel, loop_bound, hb]

/-- The report of `scan_end` is the report the loop left. -/
theorem scan_end_report (w : World) (args : t_params) (ctx : ScanCtx) (s : LoopState) :
    (scan_end w args ctx s).report = s.report ∧
      (scan_end w args ctx s).modified_modules = s.modified_modules := by
  unfold scan_end
  split_ifs <;> simp


/-- The classification counters never exceed the number of iterations run. -/
theorem scan_loop_total (w : World) (c : ScanCodes) (args : t_params) (ctx : ScanCtx)
    (s0 : LoopState) (h0 : c.SCAN_NOT_MODIFIED = 0) (hh : ctx.processHandle ≠ 0)
    (hi : s0.i = 0) (ht : total_modified s0.report = 0) :
    ∀ j : Nat, j ≤ ctx.modules_count →
      total_modified (scan_loop w c args ctx j s0).report ≤ j := by
  intro j
  induction j with
  | zero => intro _; simp [scan_loop, ht]
  | succ j ih =>
    intro hj
    have ih1 := ih (by omega)
    rw [scan_loop_succ w c args ctx hh j s0 (by omega)]
    have h := scan_module_report w c args ctx (scan_loop w c args ctx j s0) h0
    simp only [loop_step, total_modified] at *
    omega

/-- C2: in a scan that enters the loop with `n = modules_count` modules, whatever the
collaborators answer, and with `SCAN_NOT_MODIFIED` the zero of `t_scan_status`: the loop runs to
its end with the fuel `n` (it leaves with `i = n`, and more fuel changes nothing), the final
`scanned` is `n`, every
iteration `j < n` is one `loop_step` that adds exactly one to `scanned` and adds one to at most
one of `hooked`, `replaced`, `suspicious`, and in the final report
`hooked + replaced + suspicious ≤ scanned`. -/
theorem scan_counts (w : World) (c : ScanCodes) (win64 : Bool) (args : t_params)
    (ctx : ScanCtx) (s0 : LoopState) (h0 : c.SCAN_NOT_MODIFIED = 0)
    (hb : scan_begin w win64 args = Sum.inr (ctx, s0)) :
    (check_modules_in_process w c win64 args).scanned = ctx.modules_count ∧
    (scan_loop w c args ctx ctx.modules_count s0).i = ctx.modules_count ∧
    (∀ k, check_modules_run_fuel w c win64 args (ctx.modules_count + k) =
      check_modules_run w c win64 args) ∧
    (∀ j, j < ctx.modules_count →
      scan_loop w c args ctx (j + 1) s0 =
        loop_step w c args ctx (scan_loop w c args ctx j s0) ∧
      (scan_loop w c args ctx (j + 1) s0).report.scanned =
        (scan_loop w c args ctx j s0).report.scanned + 1 ∧
      (((scan_loop w c args ctx (j + 1) s0).report.hooked =
            (scan_loop w c args ctx j s0).report.hooked ∧
          (scan_loop w c args ctx (j + 1) s0).report.replaced =
            (scan_loop w c args ctx j s0).report.replaced ∧
          (scan_loop w c args ctx (j + 1) s0).report.suspicious =
            (scan_loop w c args ctx j s0).report.suspicious) ∨
        ((scan_loop w c args ctx (j + 1) s0).report.hooked =
            (scan_loop w c args ctx j s0).report.hooked + 1 ∧
          (scan_loop w c args ctx (j + 1) s0).report.replaced =
            (scan_loop w c args ctx j s0).report.replaced ∧
          (scan_loop w c args ctx (j + 1) s0).report.suspicious =
            (scan_loop w c args ctx j s0).report.suspicious) ∨
        ((scan_loop w c args ctx (j + 1) s0).report.hooked =
            (scan_loop w c args ctx j s0).report.hooked ∧
          (scan_loop w c args ctx (j + 1) s0).report.replaced =
            (scan_loop w c args ctx j s0).report.replaced + 1 ∧
          (scan_loop w c args ctx (j + 1) s0).report.suspicious =
            (scan_loop w c args ctx j s0).report.suspicious) ∨
        ((scan_loop w c args ctx (j + 1) s0).report.hooked =
            (scan_loop w c args ctx j s0).report.hooked ∧
          (scan_loop w c args ctx (j + 1) s0).report.replaced =
            (scan_loop w c args ctx j s0).report.replaced ∧
          (scan_loop w c args ctx (j + 1) s0).report.suspicious =
            (scan_loop w c args ctx j s0).report.suspicious + 1))) ∧
    (check_modules_in_process w c win64 args).hooked +
        (check_modules_in_process w c win64 args).replaced +
        (check_modules_in_process w c win64 args).suspicious ≤
      (check_modules_in_process w c win64 args).scanned := by
  obtain ⟨hh, _, hi, hr, _, _, _⟩ := scan_begin_ready w win64 args ctx s0 hb
  have hrun := check_modules_run_ready w c win64 args ctx s0 hb
  have hsc : (check_modules_in_process w c win64 args).scanned = ctx.modules_count := by
    simp only [check_modules_in_process, hrun, (scan_end_report w args ctx _).1]
    rw [scan_loop_scanned w c args ctx hh ctx.modules_count s0 (by omega) (by rw [hr, hi])]
    omega
  refine ⟨hsc, ?_, ?_, ?_, ?_⟩
  · rw [scan_loop_index w c args ctx hh ctx.modules_count s0 (by omega)]
    omega
  · intro k
    rw [hrun]
    simp only [check_modules_run_fuel, hb]
    rw [scan_loop_enough w c args ctx k ctx.modules_count s0 (by omega)]
  · intro j hj
    have hs := scan_loop_succ w c args ctx hh j s0 (by omega)
    have h := scan_module_report w c args ctx (scan_loop w c args ctx j s0) h0
    refine ⟨hs, ?_, ?_⟩
    · rw [hs]; simp only [loop_step]; rw [h.2.1]
    · rw [hs]; simp only [loop_step]; exact h.2.2.1
  · have ht := scan_loop_total w c args ctx s0 h0 hh hi (by rw [hr]; rfl) ctx.modules_count
      (le_refl _)
    rw [hsc]
    simp only [check_modules_in_process, hrun, (scan_end_report w args ctx _).1]
    simpa [total_modified] using ht


/-! ## The modified set -/

/-- After `m[k] = v` the entry of `k` is `v`. -/
theorem map_lookup_assign (m : List (Nat × String)) (k : Nat) (v : String) :
    map_lookup (map_assign m k v) k = some v := by
  induction m with
  | nil => simp [map_assign, map_lookup]
  | cons kv rest ih =>
    obtain ⟨k1, v1⟩ := kv
    unfold map_assign
    split_ifs with h1 h2
    · simp [map_lookup]
    · simp [map_lookup]
    · simp [map_lookup, h2, ih]

/-! ## A module without a reference image -/

/-- The calls of `load_stage`: the name lookup, then the load when the name was resolved. -/
theorem load_stage_events (w : World) (ctx : ScanCtx) (s : LoopState) :
    (load_stage w ctx s).modBaseAddr = read_hMods w ctx s.i ∧
    (load_stage w ctx s).szModName =
      (w.GetModuleFileNameExA s.trace ctx.processHandle
        (read_hMods w ctx s.report.scanned)).getD "unnamed" ∧
    (load_stage w ctx s).dumpFileName =
      w.make_dump_path (read_hMods w ctx s.i) (load_stage w ctx s).szModName ctx.directory ∧
    (w.GetModuleFileNameExA s.trace ctx.processHandle (read_hMods w ctx s.report.scanned) = none →
      (load_stage w ctx s).original_module = 0 ∧
      (load_stage w ctx s).events =
        [Event.GetModuleFileNameExA ctx.processHandle (read_hMods w ctx s.report.scanned) none]) ∧
    (∀ nm, w.GetModuleFileNameExA s.trace ctx.processHandle
        (read_hMods w ctx s.report.scanned) = some nm →
      (load_stage w ctx s).original_module =
        (w.load_pe_module (s.trace ++ [Event.GetModuleFileNameExA ctx.processHandle
          (read_hMods w ctx s.report.scanned) (some nm)]) nm).1 ∧
      (load_stage w ctx s).module_size =
        (w.load_pe_module (s.trace ++ [Event.GetModuleFileNameExA ctx.processHandle
          (read_hMods w ctx s.report.scanned) (some nm)]) nm).2 ∧
      (load_stage w ctx s).events =
        [Event.GetModuleFileNameExA ctx.processHandle (read_hMods w ctx s.report.scanned)
            (some nm),
          Event.load_pe_module nm (load_stage w ctx s).original_module
            (load_stage w ctx s).module_size]) := by
  unfold load_stage
  simp only []
  cases hn : w.GetModuleFileNameExA s.trace ctx.processHandle (read_hMods w ctx s.report.scanned)
    <;> simp

/-- C4: a module whose name is not resolved, or whose name is resolved but whose reference
image fails to load at the first attempt, adds one to `suspicious` and (through the loop
header) one to `scanned`, leaves `hooked`, `replaced` and `errors` as they were, and is assigned
its dump path in the modified set under its base address `hMods[i]`.  The iteration runs
neither comparator, and no load when the name is not resolved. -/
theorem unreadable_module_suspicious (w : World) (c : ScanCodes) (args : t_params)
    (ctx : ScanCtx) (s : LoopState)
    (h : w.GetModuleFileNameExA s.trace ctx.processHandle
          (read_hMods w ctx s.report.scanned) = none ∨
      ∃ nm, w.GetModuleFileNameExA s.trace ctx.processHandle
          (read_hMods w ctx s.report.scanned) = some nm ∧
        (w.load_pe_module (s.trace ++ [Event.GetModuleFileNameExA ctx.processHandle
          (read_hMods w ctx s.report.scanned) (some nm)]) nm).1 = 0) :
    (loop_step w c args ctx s).report =
      { s.report with suspicious := s.report.suspicious + 1,
                      scanned := s.report.scanned + 1 } ∧
    (loop_step w c args ctx s).i = s.i + 1 ∧
    (loop_step w c args ctx s).modified_modules =
      map_assign s.modified_modules (read_hMods w ctx s.i)
        (w.make_dump_path (read_hMods w ctx s.i)
          ((w.GetModuleFileNameExA s.trace ctx.processHandle
            (read_hMods w ctx s.report.scanned)).getD "unnamed") ctx.directory) ∧
    map_lookup (loop_step w c args ctx s).modified_modules (read_hMods w ctx s.i) =
      some (w.make_dump_path (read_hMods w ctx s.i)
        ((w.GetModuleFileNameExA s.trace ctx.processHandle
          (read_hMods w ctx s.report.scanned)).getD "unnamed") ctx.directory) ∧
    (loop_step w c args ctx s).trace = s.trace ++ (scan_module w c args ctx s).events ∧
    (∀ e ∈ (scan_module w c args ctx s).events, e.isHollow = false ∧ e.isHook = false) ∧
    (w.GetModuleFileNameExA s.trace ctx.processHandle
        (read_hMods w ctx s.report.scanned) = none →
      ∀ e ∈ (scan_module w c args ctx s).events, e.isLoad = false) := by
  obtain ⟨hb, hn, hd, hnone, hsome⟩ := load_stage_events w ctx s
  have h0 : (load_stage w ctx s).original_module = 0 := by
    rcases h with h | ⟨nm, h1, h2⟩
    · exact (hnone h).1
    · rw [(hsome nm h1).1]; exact h2
  have hm : scan_module w c args ctx s =
      { report := { s.report with suspicious := s.report.suspicious + 1 },
        modified_modules := map_assign s.modified_modules (load_stage w ctx s).modBaseAddr
          (load_stage w ctx s).dumpFileName,
        events := (load_stage w ctx s).events } := by
    unfold scan_module
    simp [h0]
  have hmm : (loop_step w c args ctx s).modified_modules =
      map_assign s.modified_modules (read_hMods w ctx s.i)
        (w.make_dump_path (read_hMods w ctx s.i)
          ((w.GetModuleFileNameExA s.trace ctx.processHandle
            (read_hMods w ctx s.report.scanned)).getD "unnamed") ctx.directory) := by
    simp only [loop_step, hm]
    rw [hd, hb, hn]
  refine ⟨?_, rfl, hmm, ?_, rfl, ?_, ?_⟩
  · simp [loop_step, hm]
  · rw [hmm, map_lookup_assign]
  · rw [hm]
    simp only []
    rcases h with h | ⟨nm, h1, h2⟩
    · rw [(hnone h).2]; simp [Event.isHollow, Event.isHook]
    · rw [(hsome nm h1).2.2]; simp [Event.isHollow, Event.isHook]
  · intro hnn
    rw [hm]
    simp only []
    rw [(hnone hnn).2]; simp [Event.isLoad]


/-! ## The calls of one iteration -/

/-- A call of the loop body is no dump and no setup call. -/
theorem isModuleCall_excludes (e : Event) (h : e.isModuleCall = true) :
    e.isDump = false ∧ e.isSetup = false ∧ e.isEnum = false ∧ e.isOpen = false := by
  cases e <;> simp_all [Event.isModuleCall, Event.isDump, Event.isSetup, Event.isEnum,
    Event.isOpen]

/-- The calls of `load_stage` are calls of the loop body. -/
theorem load_stage_calls (w : World) (ctx : ScanCtx) (s : LoopState) :
    ∀ e ∈ (load_stage w ctx s).events, e.isModuleCall = true := by
  unfold load_stage
  simp only []
  split_ifs <;> simp [Event.isModuleCall]

/-- The calls of `wow64_reload` are calls of the loop body. -/
theorem wow64_reload_calls (w : World) (ctx : ScanCtx) (nm : String) (p sz : Nat)
    (tr : List Event) :
    ∀ e ∈ (wow64_reload w ctx nm p sz tr).2.2.2, e.isModuleCall = true := by
  unfold wow64_reload
  simp only []
  split_ifs <;> simp [Event.isModuleCall]

/-- The calls of `hollowing_stage` are calls of the loop body. -/
theorem hollowing_stage_calls (w : World) (c : ScanCodes) (ctx : ScanCtx) (report : t_report)
    (mm : List (Nat × String)) (base : Nat) (dump nm : String) (p sz : Nat) (tr : List Event) :
    ∀ e ∈ (hollowing_stage w c ctx report mm base dump nm p sz tr).events,
      e.isModuleCall = true := by
  have hr := wow64_reload_calls w ctx nm p sz
    (tr ++ [Event.hollows_scanRemote base p sz (w.hollows_scanRemote tr ctx.processHandle base p sz)])
  unfold hollowing_stage
  simp only []
  split_ifs <;> intro e he <;> simp only [List.mem_append, List.mem_singleton] at he
  · rcases he with (he | he) | he
    · subst he; rfl
    · exact hr e he
    · subst he; rfl
  · rcases he with (he | he) | he
    · subst he; rfl
    · exact hr e he
    · subst he; rfl
  · subst he; rfl

/-- The calls of `lookup_stage` are calls of the loop body. -/
theorem lookup_stage_calls (ctx : ScanCtx) (base : Nat) (h : HollowOut) :
    ∀ e ∈ lookup_stage ctx base h, e.isModuleCall = true := by
  unfold lookup_stage
  split_ifs <;> simp [Event.isModuleCall]

/-- The calls of `hook_stage` are calls of the loop body. -/
theorem hook_stage_calls (w : World) (c : ScanCodes) (args : t_params) (ctx : ScanCtx)
    (base : Nat) (dump : String) (h : HollowOut) (tr : List Event) :
    ∀ e ∈ (hook_stage w c args ctx base dump h tr).events, e.isModuleCall = true := by
  unfold hook_stage
  simp only []
  split_ifs <;> simp [Event.isModuleCall]

/-- The calls of one iteration are calls of the loop body. -/
theorem scan_module_calls (w : World) (c : ScanCodes) (args : t_params) (ctx : ScanCtx)
    (s : LoopState) :
    ∀ e ∈ (scan_module w c args ctx s).events, e.isModuleCall = true := by
  unfold scan_module
  simp only []
  split_ifs with h0
  · exact load_stage_calls w ctx s
  · intro e he
    simp only [check_stage, List.mem_append, List.mem_singleton] at he
    rcases he with he | ((he | he) | he) | he
    · exact load_stage_calls w ctx s e he
    · exact hollowing_stage_calls _ _ _ _ _ _ _ _ _ _ _ e he
    · exact lookup_stage_calls _ _ _ e he
    · exact hook_stage_calls _ _ _ _ _ _ _ _ e he
    · subst he; rfl


/-! ## The dump pass -/

/-- The keys after `m[k] = v` are `k` and the keys there were. -/
theorem map_assign_keys (m : List (Nat × String)) (k : Nat) (v : String) (b : Nat) :
    b ∈ map_keys (map_assign m k v) ↔ b = k ∨ b ∈ map_keys m := by
  induction m with
  | nil => simp [map_assign, map_keys]
  | cons kv rest ih =>
    obtain ⟨k1, v1⟩ := kv
    unfold map_assign
    split_ifs with h1 h2
    · simp [map_keys]
    · subst h2; simp [map_keys]
    · simp only [map_keys, List.map_cons, List.mem_cons] at ih ⊢
      rw [ih]
      tauto

/-- The assignment `m[k] = v` keeps the keys strictly increasing. -/
theorem map_assign_sorted (m : List (Nat × String)) (k : Nat) (v : String)
    (hs : (map_keys m).Pairwise (fun a b => a < b)) :
    (map_keys (map_assign m k v)).Pairwise (fun a b => a < b) := by
  induction m with
  | nil => simp [map_assign, map_keys]
  | cons kv rest ih =>
    obtain ⟨k1, v1⟩ := kv
    have hs1 : ∀ b ∈ map_keys rest, k1 < b := by
      simpa [map_keys] using (List.pairwise_cons.mp hs).1
    have hs2 : (map_keys rest).Pairwise (fun a b => a < b) := (List.pairwise_cons.mp hs).2
    unfold map_assign
    split_ifs with h1 h2
    · refine List.pairwise_cons.mpr ⟨?_, hs⟩
      intro b hb
      simp only [map_keys, List.map_cons, List.mem_cons] at hb
      rcases hb with hb | hb
      · omega
      · have := hs1 b hb; omega
    · subst h2; exact hs
    · refine List.pairwise_cons.mpr ⟨?_, ih hs2⟩
      intro b hb
      rcases (map_assign_keys rest k v b).mp hb with hb | hb
      · omega
      · exact hs1 b hb

/-- The calls of the dump loop: one `dump_remote_pe` per entry, in order, with the path of the
entry and `unmap = true`; the count returned is the start count plus the successes. -/
theorem dump_loop_events (w : World) (h : Nat) (em : Bool) :
    ∀ (m : List (Nat × String)) (dumped : Nat) (tr : List Event),
      ∃ oks : List Bool, oks.length = m.length ∧
        (dump_loop w h em m dumped tr).2 =
          List.zipWith (fun kv ok => Event.dump_remote_pe kv.2 h kv.1 true em ok) m oks ∧
        (dump_loop w h em m dumped tr).1 = dumped + oks.count true := by
  intro m
  induction m with
  | nil => intro dumped tr; exact ⟨[], rfl, rfl, rfl⟩
  | cons kv rest ih =>
    intro dumped tr
    obtain ⟨k1, v1⟩ := kv
    obtain ⟨oks, h1, h2, h3⟩ := ih
      (if w.dump_remote_pe tr v1 h k1 true em then dumped + 1 else dumped)
      (tr ++ [Event.dump_remote_pe v1 h k1 true em (w.dump_remote_pe tr v1 h k1 true em)])
    refine ⟨w.dump_remote_pe tr v1 h k1 true em :: oks, by simp [h1], ?_, ?_⟩
    · simp only [dump_loop, List.zipWith_cons_cons]
      rw [h2]
    · simp only [dump_loop]
      rw [h3]
      cases w.dump_remote_pe tr v1 h k1 true em with
      | false => simp
      | true => simp; omega

/-- Counting in a list of dump calls built from the entries of a map. -/
theorem dump_events_count (h : Nat) (em : Bool) (b : Nat) :
    ∀ (m : List (Nat × String)) (oks : List Bool), oks.length = m.length →
      (List.zipWith (fun kv ok => Event.dump_remote_pe kv.2 h kv.1 true em ok) m oks).countP
          (Event.isDumpOf b) = (map_keys m).count b ∧
      (List.zipWith (fun kv ok => Event.dump_remote_pe kv.2 h kv.1 true em ok) m oks).countP
          Event.isDumpOk = oks.count true ∧
      (List.zipWith (fun kv ok => Event.dump_remote_pe kv.2 h kv.1 true em ok) m oks).countP
          Event.isDump = m.length := by
  intro m
  induction m with
  | nil => intro oks h; cases oks <;> simp_all [map_keys]
  | cons kv rest ih =>
    intro oks hl
    cases oks with
    | nil => simp at hl
    | cons ok oks =>
      obtain ⟨i1, i2, i3⟩ := ih oks (by simpa using hl)
      simp only [List.zipWith_cons_cons, List.countP_cons, i1, i2, i3, map_keys, List.map_cons,
        List.count_cons, Event.isDumpOf, Event.isDumpOk, Event.isDump, List.length_cons]
      refine ⟨?_, ?_, ?_⟩
      · simp [map_keys]
      · cases ok <;> simp
      · simp

/-- The modified set after the hollowing stage is the set before, with or without one assignment
for the module. -/
theorem hollowing_stage_modified (w : World) (c : ScanCodes) (ctx : ScanCtx) (report : t_report)
    (mm : List (Nat × String)) (base : Nat) (dump nm : String) (p sz : Nat) (tr : List Event) :
    (hollowing_stage w c ctx report mm base dump nm p sz tr).modified_modules = mm ∨
    (hollowing_stage w c ctx report mm base dump nm p sz tr).modified_modules =
      map_assign mm base dump := by
  unfold hollowing_stage
  simp only []
  split_ifs <;> simp

/-- The modified set after the hook stage is the set before, with or without one assignment
for the module. -/
theorem hook_stage_modified (w : World) (c : ScanCodes) (args : t_params) (ctx : ScanCtx)
    (base : Nat) (dump : String) (h : HollowOut) (tr : List Event) :
    (hook_stage w c args ctx base dump h tr).modified_modules = h.modified_modules ∨
    (hook_stage w c args ctx base dump h tr).modified_modules =
      map_assign h.modified_modules base dump := by
  unfold hook_stage
  simp only []
  split_ifs <;> simp

/-- A property of the modified set that every assignment preserves is preserved by one
iteration. -/
theorem scan_module_modified (w : World) (c : ScanCodes) (args : t_params) (ctx : ScanCtx)
    (s : LoopState) (P : List (Nat × String) → Prop)
    (hP : ∀ m k v, P m → P (map_assign m k v)) (h : P s.modified_modules) :
    P (scan_module w c args ctx s).modified_modules := by
  unfold scan_module
  simp only []
  split_ifs with h0
  · exact hP _ _ _ h
  · simp only [check_stage]
    rcases hook_stage_modified w c args ctx (load_stage w ctx s).modBaseAddr
      (load_stage w ctx s).dumpFileName
      (hollowing_stage w c ctx s.report s.modified_modules (load_stage w ctx s).modBaseAddr
        (load_stage w ctx s).dumpFileName (load_stage w ctx s).szModName
        (load_stage w ctx s).original_module (load_stage w ctx s).module_size
        (s.trace ++ (load_stage w ctx s).events))
      (s.trace ++ (load_stage w ctx s).events ++
        ((hollowing_stage w c ctx s.report s.modified_modules (load_stage w ctx s).modBaseAddr
          (load_stage w ctx s).dumpFileName (load_stage w ctx s).szModName
          (load_stage w ctx s).original_module (load_stage w ctx s).module_size
          (s.trace ++ (load_stage w ctx s).events)).events ++
          lookup_stage ctx (load_stage w ctx s).modBaseAddr
            (hollowing_stage w c ctx s.report s.modified_modules
              (load_stage w ctx s).modBaseAddr (load_stage w ctx s).dumpFileName
              (load_stage w ctx s).szModName (load_stage w ctx s).original_module
              (load_stage w ctx s).module_size (s.trace ++ (load_stage w ctx s).events))))
      with hk | hk <;>
    rcases hollowing_stage_modified w c ctx s.report s.modified_modules
      (load_stage w ctx s).modBaseAddr (load_stage w ctx s).dumpFileName
      (load_stage w ctx s).szModName (load_stage w ctx s).original_module
      (load_stage w ctx s).module_size (s.trace ++ (load_stage w ctx s).events)
      with hh | hh <;>
    rw [hk, hh]
    · exact h
    · exact hP _ _ _ h
    · exact hP _ _ _ h
    · exact hP _ _ _ (hP _ _ _ h)

/-- A property of the modified set that every assignment preserves is preserved by the loop. -/
theorem scan_loop_modified (w : World) (c : ScanCodes) (args : t_params) (ctx : ScanCtx)
    (P : List (Nat × String) → Prop) (hP : ∀ m k v, P m → P (map_assign m k v)) :
    ∀ (fuel : Nat) (s : LoopState), P s.modified_modules →
      P (scan_loop w c args ctx fuel s).modified_modules := by
  intro fuel
  induction fuel with
  | zero => intro s h; exact h
  | succ fuel ih =>
    intro s h
    unfold scan_loop
    split_ifs
    · exact h
    · exact ih _ (scan_module_modified w c args ctx s P hP h)
    · exact h

/-- The loop adds only calls of the loop body to the trace. -/
theorem scan_loop_trace (w : World) (c : ScanCodes) (args : t_params) (ctx : ScanCtx)
    (Q : Event → Prop) (hQ : ∀ e, e.isModuleCall = true → Q e) :
    ∀ (fuel : Nat) (s : LoopState), (∀ e ∈ s.trace, Q e) →
      ∀ e ∈ (scan_loop w c args ctx fuel s).trace, Q e := by
  intro fuel
  induction fuel with
  | zero => intro s h; exact h
  | succ fuel ih =>
    intro s h
    unfold scan_loop
    split_ifs
    · exact h
    · apply ih
      intro e he
      simp only [loop_step, List.mem_append] at he
      rcases he with he | he
      · exact h e he
      · exact hQ e (scan_module_calls w c args ctx s e he)
    · exact h

/-- Running `a` iterations and then `b` more is running `a + b`. -/
theorem scan_loop_add (w : World) (c : ScanCodes) (args : t_params) (ctx : ScanCtx) (b : Nat) :
    ∀ (a : Nat) (s : LoopState),
      scan_loop w c args ctx (a + b) s =
        scan_loop w c args ctx b (scan_loop w c args ctx a s) := by
  intro a
  induction a with
  | zero => intro s; simp [scan_loop]
  | succ a ih =>
    intro s
    have e : a + 1 + b = (a + b) + 1 := by omega
    rw [e]
    by_cases h1 : s.i < ctx.modules_count
    · by_cases h2 : ctx.processHandle = 0
      · have e1 : ∀ n, scan_loop w c args ctx n s = s := by
          intro n; cases n <;> simp [scan_loop, h1, h2]
        simp [e1]
      · have e1 : ∀ n, scan_loop w c args ctx (n + 1) s =
            scan_loop w c args ctx n (loop_step w c args ctx s) := by
          intro n
          conv_lhs => unfold scan_loop
          simp [h1, h2]
        rw [e1, e1, ih]
    · have e1 : ∀ n, scan_loop w c args ctx n s = s := by
        intro n; cases n <;> simp [scan_loop, h1]
      simp [e1]


/-- The answers in the calls of the dump loop are those of the world: the call for the entry at
position `k` carries what `dump_remote_pe` answers for that entry after the calls made before
the loop and the `k` dump calls made before it. -/
theorem dump_loop_answers (w : World) (h : Nat) (em : Bool) :
    ∀ (m : List (Nat × String)) (dumped : Nat) (tr : List Event) (k : Nat) (kv : Nat × String),
      m[k]? = some kv →
      (dump_loop w h em m dumped tr).2[k]? =
        some (Event.dump_remote_pe kv.2 h kv.1 true em
          (w.dump_remote_pe (tr ++ (dump_loop w h em m dumped tr).2.take k) kv.2 h kv.1 true
            em)) := by
  intro m
  induction m with
  | nil => intro dumped tr k kv hk; simp at hk
  | cons e rest ih =>
    intro dumped tr k kv hk
    obtain ⟨k1, v1⟩ := e
    cases k with
    | zero =>
      simp only [List.getElem?_cons_zero, Option.some.injEq] at hk
      subst hk
      simp [dump_loop]
    | succ k =>
      simp only [List.getElem?_cons_succ] at hk
      have := ih (if w.dump_remote_pe tr v1 h k1 true em then dumped + 1 else dumped)
        (tr ++ [Event.dump_remote_pe v1 h k1 true em (w.dump_remote_pe tr v1 h k1 true em)])
        k kv hk
      simp only [dump_loop, List.getElem?_cons_succ, List.take_succ_cons]
      rw [this]
      simp [List.append_assoc]

/-- A dump attempt for a given module is a dump attempt. -/
theorem isDumpOf_isDump (b : Nat) (e : Event) (h : e.isDump = false) :
    e.isDumpOf b = false := by
  cases e <;> simp_all [Event.isDump, Event.isDumpOf]

/-- The trace of an early return holds setup calls only. -/
theorem scan_begin_fatal (w : World) (win64 : Bool) (args : t_params) (r : Run)
    (hb : scan_begin w win64 args = Sum.inl r) : ∀ e ∈ r.trace, e.isSetup = true := by
  unfold scan_begin at hb
  simp only [] at hb
  split_ifs at hb with h1 h2
  · simp only [Sum.inl.injEq] at hb
    subst hb
    intro e he
    exact (open_process_events w [] args.pid e he).1
  · simp only [Sum.inl.injEq] at hb
    subst hb
    intro e he
    simp only [List.mem_append] at he
    rcases he with (he | he) | he
    · exact (open_process_events w [] args.pid e he).1
    · exact scan_wow64_events _ _ _ _ e he
    · exact enum_modules_events _ _ _ _ _ _ e he

/-- C7: `dump_all_modified` makes one `dump_remote_pe` call per entry of the modified set, in
the order of the set, with the path of the entry and `unmap = true`, whatever the earlier calls
answered; the call for the entry at position `k` carries the answer `dump_remote_pe` of the world
gives for that entry after the calls made before and the `k` earlier dump calls; the function
returns the number of calls that were answered with success, which is at most the size of the
set.
In a scan that enters the loop with `no_dump` and `quiet` both false, the trace is the trace of
the loop, which holds no dump call, followed by the calls of one `dump_all_modified` over the
final modified set, and every base address that is in the modified set after any number of
iterations has exactly one dump call.  With `no_dump` or `quiet` set no run makes a dump
call. -/
theorem dump_pass (w : World) (c : ScanCodes) (win64 : Bool) (args : t_params) :
    (∀ (tr : List Event) (h : Nat) (m : List (Nat × String)) (em : Bool),
      (∃ oks : List Bool, oks.length = m.length ∧
        (dump_all_modified w tr h m em).2 =
          List.zipWith (fun kv ok => Event.dump_remote_pe kv.2 h kv.1 true em ok) m oks) ∧
      (dump_all_modified w tr h m em).2.length = m.length ∧
      (∀ (k : Nat) (kv : Nat × String), m[k]? = some kv →
        (dump_all_modified w tr h m em).2[k]? =
          some (Event.dump_remote_pe kv.2 h kv.1 true em
            (w.dump_remote_pe (tr ++ (dump_all_modified w tr h m em).2.take k) kv.2 h kv.1
              true em))) ∧
      (dump_all_modified w tr h m em).1 =
        (dump_all_modified w tr h m em).2.countP Event.isDumpOk ∧
      (dump_all_modified w tr h m em).1 ≤ m.length) ∧
    (∀ (ctx : ScanCtx) (s0 : LoopState), scan_begin w win64 args = Sum.inr (ctx, s0) →
      args.no_dump = false → args.quiet = false →
      (check_modules_run w c win64 args).trace =
        (scan_loop w c args ctx ctx.modules_count s0).trace ++
          (dump_all_modified w (scan_loop w c args ctx ctx.modules_count s0).trace
            ctx.processHandle (scan_loop w c args ctx ctx.modules_count s0).modified_modules
            ctx.exportsMap).2 ∧
      (∀ e ∈ (scan_loop w c args ctx ctx.modules_count s0).trace, e.isDump = false) ∧
      (∀ j, j ≤ ctx.modules_count →
        ∀ b ∈ map_keys (scan_loop w c args ctx j s0).modified_modules,
          (check_modules_run w c win64 args).trace.countP (Event.isDumpOf b) = 1)) ∧
    ((args.no_dump = true ∨ args.quiet = true) →
      ∀ e ∈ (check_modules_run w c win64 args).trace, e.isDump = false) := by
  have hloop : ∀ (ctx : ScanCtx) (s0 : LoopState), scan_begin w win64 args = Sum.inr (ctx, s0) →
      ∀ e ∈ (scan_loop w c args ctx ctx.modules_count s0).trace, e.isDump = false := by
    intro ctx s0 hb
    obtain ⟨_, _, _, _, _, _, hs⟩ := scan_begin_ready w win64 args ctx s0 hb
    have h1 := scan_loop_trace w c args ctx (fun e => e.isModuleCall = true ∨ e.isSetup = true)
      (fun e he => Or.inl he) ctx.modules_count s0 (fun e he => Or.inr (hs e he))
    intro e he
    rcases h1 e he with h2 | h2
    · exact (isModuleCall_excludes e h2).1
    · exact (isSetup_excludes e h2).2.2.2.2
  refine ⟨?_, ?_, ?_⟩
  · intro tr h m em
    obtain ⟨oks, h1, h2, h3⟩ := dump_loop_events w h em m 0 tr
    have hc := dump_events_count h em 0 m oks h1
    refine ⟨⟨oks, h1, h2⟩, ?_, ?_, ?_, ?_⟩
    · simp only [dump_all_modified]
      rw [h2]
      simp [h1]
    · intro k kv hk
      exact dump_loop_answers w h em m 0 tr k kv hk
    · simp only [dump_all_modified]
      rw [h3, h2, hc.2.1]; omega
    · simp only [dump_all_modified]
      rw [h3]
      have := List.count_le_length true oks
      omega
  · intro ctx s0 hb hnd hq
    have hrun := check_modules_run_ready w c win64 args ctx s0 hb
    have htr : (check_modules_run w c win64 args).trace =
        (scan_loop w c args ctx ctx.modules_count s0).trace ++
          (dump_all_modified w (scan_loop w c args ctx ctx.modules_count s0).trace
            ctx.processHandle (scan_loop w c args ctx ctx.modules_count s0).modified_modules
            ctx.exportsMap).2 := by
      rw [hrun]; simp [scan_end, hnd, hq]
    refine ⟨htr, hloop ctx s0 hb, ?_⟩
    intro j hj b hbj
    obtain ⟨_, _, _, _, hm0, _, _⟩ := scan_begin_ready w win64 args ctx s0 hb
    -- the final modified set has strictly increasing keys and holds `b`
    have hsorted := scan_loop_modified w c args ctx
      (fun m => (map_keys m).Pairwise (fun a b => a < b))
      (fun m k v h => map_assign_sorted m k v h) ctx.modules_count s0
      (by rw [hm0]; simp [map_keys])
    have hmem : b ∈ map_keys (scan_loop w c args ctx ctx.modules_count s0).modified_modules := by
      have e : ctx.modules_count = j + (ctx.modules_count - j) := by omega
      rw [e, scan_loop_add]
      exact scan_loop_modified w c args ctx (fun m => b ∈ map_keys m)
        (fun m k v h => (map_assign_keys m k v b).mpr (Or.inr h)) _ _ hbj
    have hnodup : (map_keys (scan_loop w c args ctx ctx.modules_count s0).modified_modules).Nodup :=
      List.Pairwise.imp (fun h => Nat.ne_of_lt h) hsorted
    obtain ⟨oks, h1, h2, _⟩ := dump_loop_events w ctx.processHandle ctx.exportsMap
      (scan_loop w c args ctx ctx.modules_count s0).modified_modules 0
      (scan_loop w c args ctx ctx.modules_count s0).trace
    have hc := (dump_events_count ctx.processHandle ctx.exportsMap b _ oks h1).1
    have hz : (scan_loop w c args ctx ctx.modules_count s0).trace.countP (Event.isDumpOf b) = 0 := by
      rw [List.countP_eq_zero]
      intro e he
      simp [isDumpOf_isDump b e (hloop ctx s0 hb e he)]
    rw [htr, List.countP_append, hz]
    simp only [dump_all_modified]
    rw [h2, hc, List.count_eq_one_of_mem hnodup hmem]
  · intro hor e he
    cases hb : scan_begin w win64 args with
    | inl r =>
      simp only [check_modules_run, check_modules_run_fuel, hb] at he
      exact (isSetup_excludes e (scan_begin_fatal w win64 args r hb e he)).2.2.2.2
    | inr p =>
      obtain ⟨ctx, s0⟩ := p
      rw [check_modules_run_ready w c win64 args ctx s0 hb] at he
      have : (scan_end w args ctx (scan_loop w c args ctx ctx.modules_count s0)).trace =
          (scan_loop w c args ctx ctx.modules_count s0).trace := by
        rcases hor with h | h <;> simp [scan_end, h]
      rw [this] at he
      exact hloop ctx s0 hb e he


/-! ## The hollowing stage and its retry -/

/-- Without `isWow64` nothing is reloaded. -/
theorem wow64_reload_off (w : World) (ctx : ScanCtx) (nm : String) (p sz : Nat)
    (tr : List Event) (h : ctx.isWow64 = false) :
    wow64_reload w ctx nm p sz tr = (nm, p, sz, []) := by
  simp [wow64_reload, h]

/-- With `isWow64` the path is translated, the reference released and loaded again from the
translated path. -/
theorem wow64_reload_on (w : World) (ctx : ScanCtx) (nm : String) (p sz : Nat)
    (tr : List Event) (h : ctx.isWow64 = true) :
    wow64_reload w ctx nm p sz tr =
      ((w.convert_to_wow64_path nm).2,
        (w.load_pe_module (tr ++ [Event.convert_to_wow64_path nm (w.convert_to_wow64_path nm).1
          (w.convert_to_wow64_path nm).2, Event.free_pe_buffer p sz])
          (w.convert_to_wow64_path nm).2).1,
        (w.load_pe_module (tr ++ [Event.convert_to_wow64_path nm (w.convert_to_wow64_path nm).1
          (w.convert_to_wow64_path nm).2, Event.free_pe_buffer p sz])
          (w.convert_to_wow64_path nm).2).2,
        [Event.convert_to_wow64_path nm (w.convert_to_wow64_path nm).1
          (w.convert_to_wow64_path nm).2, Event.free_pe_buffer p sz,
          Event.load_pe_module (w.convert_to_wow64_path nm).2
            (w.load_pe_module (tr ++ [Event.convert_to_wow64_path nm
              (w.convert_to_wow64_path nm).1 (w.convert_to_wow64_path nm).2,
              Event.free_pe_buffer p sz]) (w.convert_to_wow64_path nm).2).1
            (w.load_pe_module (tr ++ [Event.convert_to_wow64_path nm
              (w.convert_to_wow64_path nm).1 (w.convert_to_wow64_path nm).2,
              Event.free_pe_buffer p sz]) (w.convert_to_wow64_path nm).2).2]) := by
  simp [wow64_reload, h]

/-- The hollowing stage, case by case.  When the first comparison does not answer
`SCAN_MODIFIED` it is the only call.  When it does and `isWow64` is not set, the comparison is
run again on the same reference.  When it does and `isWow64` is set, the path is translated, the
reference released and loaded again from the translated path, and the comparison run on what
the load gave.  After a first `SCAN_MODIFIED`, `replaced` grows and the module enters the
modified set exactly when the second status is not zero. -/
theorem hollowing_stage_events (w : World) (c : ScanCodes) (ctx : ScanCtx) (report : t_report)
    (mm : List (Nat × String)) (base : Nat) (dump nm : String) (p sz : Nat) (tr : List Event) :
    (w.hollows_scanRemote tr ctx.processHandle base p sz ≠ c.SCAN_MODIFIED →
      hollowing_stage w c ctx report mm base dump nm p sz tr =
        { szModName := nm, original_module := p, module_size := sz,
          is_hollowed := w.hollows_scanRemote tr ctx.processHandle base p sz,
          report := report, modified_modules := mm,
          events := [Event.hollows_scanRemote base p sz
            (w.hollows_scanRemote tr ctx.processHandle base p sz)] }) ∧
    (w.hollows_scanRemote tr ctx.processHandle base p sz = c.SCAN_MODIFIED →
      ctx.isWow64 = false →
      (hollowing_stage w c ctx report mm base dump nm p sz tr).events =
        [Event.hollows_scanRemote base p sz c.SCAN_MODIFIED,
          Event.hollows_scanRemote base p sz
            (hollowing_stage w c ctx report mm base dump nm p sz tr).is_hollowed] ∧
      (hollowing_stage w c ctx report mm base dump nm p sz tr).is_hollowed =
        w.hollows_scanRemote (tr ++ [Event.hollows_scanRemote base p sz c.SCAN_MODIFIED])
          ctx.processHandle base p sz ∧
      (hollowing_stage w c ctx report mm base dump nm p sz tr).szModName = nm ∧
      (hollowing_stage w c ctx report mm base dump nm p sz tr).original_module = p ∧
      (hollowing_stage w c ctx report mm base dump nm p sz tr).module_size = sz) ∧
    (w.hollows_scanRemote tr ctx.processHandle base p sz = c.SCAN_MODIFIED →
      ctx.isWow64 = true →
      (hollowing_stage w c ctx report mm base dump nm p sz tr).events =
        [Event.hollows_scanRemote base p sz c.SCAN_MODIFIED,
          Event.convert_to_wow64_path nm (w.convert_to_wow64_path nm).1
            (w.convert_to_wow64_path nm).2,
          Event.free_pe_buffer p sz,
          Event.load_pe_module (w.convert_to_wow64_path nm).2
            (hollowing_stage w c ctx report mm base dump nm p sz tr).original_module
            (hollowing_stage w c ctx report mm base dump nm p sz tr).module_size,
          Event.hollows_scanRemote base
            (hollowing_stage w c ctx report mm base dump nm p sz tr).original_module
            (hollowing_stage w c ctx report mm base dump nm p sz tr).module_size
            (hollowing_stage w c ctx report mm base dump nm p sz tr).is_hollowed] ∧
      (hollowing_stage w c ctx report mm base dump nm p sz tr).szModName =
        (w.convert_to_wow64_path nm).2 ∧
      (hollowing_stage w c ctx report mm base dump nm p sz tr).original_module =
        (w.load_pe_module (tr ++ [Event.hollows_scanRemote base p sz c.SCAN_MODIFIED,
          Event.convert_to_wow64_path nm (w.convert_to_wow64_path nm).1
            (w.convert_to_wow64_path nm).2,
          Event.free_pe_buffer p sz]) (w.convert_to_wow64_path nm).2).1 ∧
      (hollowing_stage w c ctx report mm base dump nm p sz tr).module_size =
        (w.load_pe_module (tr ++ [Event.hollows_scanRemote base p sz c.SCAN_MODIFIED,
          Event.convert_to_wow64_path nm (w.convert_to_wow64_path nm).1
            (w.convert_to_wow64_path nm).2,
          Event.free_pe_buffer p sz]) (w.convert_to_wow64_path nm).2).2 ∧
      (hollowing_stage w c ctx report mm base dump nm p sz tr).is_hollowed =
        w.hollows_scanRemote (tr ++ [Event.hollows_scanRemote base p sz c.SCAN_MODIFIED,
          Event.convert_to_wow64_path nm (w.convert_to_wow64_path nm).1
            (w.convert_to_wow64_path nm).2,
          Event.free_pe_buffer p sz,
          Event.load_pe_module (w.convert_to_wow64_path nm).2
            (hollowing_stage w c ctx report mm base dump nm p sz tr).original_module
            (hollowing_stage w c ctx report mm base dump nm p sz tr).module_size])
          ctx.processHandle base
          (hollowing_stage w c ctx report mm base dump nm p sz tr).original_module
          (hollowing_stage w c ctx report mm base dump nm p sz tr).module_size) ∧
    (w.hollows_scanRemote tr ctx.processHandle base p sz = c.SCAN_MODIFIED →
      ((hollowing_stage w c ctx report mm base dump nm p sz tr).is_hollowed ≠ 0 →
        (hollowing_stage w c ctx report mm base dump nm p sz tr).report =
          { report with replaced := report.replaced + 1 } ∧
        (hollowing_stage w c ctx report mm base dump nm p sz tr).modified_modules =
          map_assign mm base dump) ∧
      ((hollowing_stage w c ctx report mm base dump nm p sz tr).is_hollowed = 0 →
        (hollowing_stage w c ctx report mm base dump nm p sz tr).report = report ∧
        (hollowing_stage w c ctx report mm base dump nm p sz tr).modified_modules = mm)) := by
  refine ⟨?_, ?_, ?_, ?_⟩
  · intro h1
    unfold hollowing_stage
    simp [h1]
  · intro h1 h2
    unfold hollowing_stage
    simp only [h1, if_true]
    rw [wow64_reload_off w ctx nm p sz _ h2]
    split_ifs <;> simp
  · intro h1 h2
    unfold hollowing_stage
    simp only [h1, if_true]
    rw [wow64_reload_on w ctx nm p sz _ h2]
    split_ifs <;> simp
  · intro h1
    unfold hollowing_stage
    simp only [h1, if_true]
    split_ifs with h3 <;> simp_all

/-- The calls of an iteration after the hollowing stage are no load, no translation and no
hollowing comparison. -/
theorem check_stage_tail (w : World) (c : ScanCodes) (args : t_params) (ctx : ScanCtx)
    (report : t_report) (mm : List (Nat × String)) (l : LoadOut) (tr : List Event) :
    ∃ rest, (check_stage w c args ctx report mm l tr).events =
        (hollowing_stage w c ctx report mm l.modBaseAddr l.dumpFileName l.szModName
          l.original_module l.module_size tr).events ++ rest ∧
      ∀ e ∈ rest, e.isLoad = false ∧ e.isConvert = false ∧ e.isHollow = false := by
  refine ⟨_, by simp only [check_stage, List.append_assoc]; rfl, ?_⟩
  intro e he
  simp only [List.mem_append, List.mem_singleton] at he
  rcases he with he | he | he
  · unfold lookup_stage at he
    split_ifs at he
    · simp only [List.mem_singleton] at he; subst he
      simp [Event.isLoad, Event.isConvert, Event.isHollow]
    · simp at he
  · unfold hook_stage at he
    simp only [] at he
    split_ifs at he <;> simp at he
    · rcases he with he | he <;> subst he <;> simp [Event.isLoad, Event.isConvert, Event.isHollow]
    · subst he; simp [Event.isLoad, Event.isConvert, Event.isHollow]
    · subst he; simp [Event.isLoad, Event.isConvert, Event.isHollow]
  · subst he; simp [Event.isLoad, Event.isConvert, Event.isHollow]


/-- The calls of `load_stage` by class: at most one load, exactly one when a reference image was
obtained, and neither translation nor comparison. -/
theorem load_stage_counts (w : World) (ctx : ScanCtx) (s : LoopState) :
    (load_stage w ctx s).events.countP Event.isLoad ≤ 1 ∧
    ((load_stage w ctx s).original_module ≠ 0 →
      (load_stage w ctx s).events.countP Event.isLoad = 1) ∧
    (load_stage w ctx s).events.countP Event.isConvert = 0 ∧
    (load_stage w ctx s).events.countP Event.isHollow = 0 := by
  unfold load_stage
  simp only []
  split_ifs <;> simp [Event.isLoad, Event.isConvert, Event.isHollow]

/-- The flag `isWow64` with which the loop is entered: set only in a 64-bit build, by the answer
of `IsWow64Process` for the target. -/
theorem scan_begin_isWow64 (w : World) (win64 : Bool) (args : t_params) (ctx : ScanCtx)
    (s0 : LoopState) (hb : scan_begin w win64 args = Sum.inr (ctx, s0)) :
    ctx.isWow64 = (win64 && w.IsWow64Process (open_process w [] args.pid).2 ctx.processHandle) := by
  unfold scan_begin at hb
  simp only [] at hb
  split_ifs at hb with h1 h2 h3 h4 h5
  all_goals
    simp only [Sum.inr.injEq, Prod.mk.injEq] at hb
    obtain ⟨hc, _⟩ := hb
    subst hc
    cases win64 <;> simp [scan_wow64]

/-- The hook stage and the error accounting leave `replaced` as the hollowing stage set it. -/
theorem check_stage_replaced (w : World) (c : ScanCodes) (args : t_params) (ctx : ScanCtx)
    (report : t_report) (mm : List (Nat × String)) (l : LoadOut) (tr : List Event) :
    (check_stage w c args ctx report mm l tr).report.replaced =
      (hollowing_stage w c ctx report mm l.modBaseAddr l.dumpFileName l.szModName
        l.original_module l.module_size tr).report.replaced := by
  unfold check_stage
  simp only []
  generalize hollowing_stage w c ctx report mm l.modBaseAddr l.dumpFileName l.szModName
    l.original_module l.module_size tr = h
  rcases hook_stage_report w c args ctx l.modBaseAddr l.dumpFileName h
    (tr ++ (h.events ++ lookup_stage ctx l.modBaseAddr h)) with hk | hk <;>
    split_ifs <;> simp [hk]

/-- An iteration with a reference image is `load_stage` followed by `check_stage`. -/
theorem scan_module_loaded (w : World) (c : ScanCodes) (args : t_params) (ctx : ScanCtx)
    (s : LoopState) (h0 : (load_stage w ctx s).original_module ≠ 0) :
    scan_module w c args ctx s =
      { report := (check_stage w c args ctx s.report s.modified_modules (load_stage w ctx s)
          (s.trace ++ (load_stage w ctx s).events)).report,
        modified_modules := (check_stage w c args ctx s.report s.modified_modules
          (load_stage w ctx s) (s.trace ++ (load_stage w ctx s).events)).modified_modules,
        events := (load_stage w ctx s).events ++
          (check_stage w c args ctx s.report s.modified_modules (load_stage w ctx s)
            (s.trace ++ (load_stage w ctx s).events)).events } := by
  unfold scan_module
  simp [h0]

/-- An iteration without a reference image makes the calls of `load_stage` only. -/
theorem scan_module_unloaded (w : World) (c : ScanCodes) (args : t_params) (ctx : ScanCtx)
    (s : LoopState) (h0 : (load_stage w ctx s).original_module = 0) :
    (scan_module w c args ctx s).events = (load_stage w ctx s).events := by
  unfold scan_module
  simp [h0]

/-- C6 (amended): the retry of the hollowing comparison.  In every iteration there are at most
two loads, two hollowing comparisons and one path translation.  For a module whose reference
image was loaded: when the first comparison does not answer `SCAN_MODIFIED` there is one load,
one comparison, no translation, and `replaced` is unchanged; when it answers `SCAN_MODIFIED` and
`isWow64` is not set, the comparison is run a second time on the same reference with no
translation and no reload; when it answers `SCAN_MODIFIED` and `isWow64` is set, the path is
translated, the reference released and loaded once more from the translated path, and the
comparison run a second time on what that load gave.  The second status and the reloaded buffer
in the trace are the answers of the comparator and of the loader of the world at that point of
the trace.  `isWow64` is set only in a 64-bit build
and only when `IsWow64Process` says the target is a Wow64 process. -/
theorem hollowing_retry (w : World) (c : ScanCodes) (args : t_params) (ctx : ScanCtx)
    (s : LoopState) :
    ((scan_module w c args ctx s).events.countP Event.isLoad ≤ 2 ∧
      (scan_module w c args ctx s).events.countP Event.isHollow ≤ 2 ∧
      (scan_module w c args ctx s).events.countP Event.isConvert ≤ 1) ∧
    ((load_stage w ctx s).original_module ≠ 0 →
      (w.hollows_scanRemote (s.trace ++ (load_stage w ctx s).events) ctx.processHandle
          (load_stage w ctx s).modBaseAddr (load_stage w ctx s).original_module
          (load_stage w ctx s).module_size ≠ c.SCAN_MODIFIED →
        (scan_module w c args ctx s).events.countP Event.isLoad = 1 ∧
        (scan_module w c args ctx s).events.countP Event.isHollow = 1 ∧
        (scan_module w c args ctx s).events.countP Event.isConvert = 0 ∧
        (scan_module w c args ctx s).report.replaced = s.report.replaced) ∧
      (w.hollows_scanRemote (s.trace ++ (load_stage w ctx s).events) ctx.processHandle
          (load_stage w ctx s).modBaseAddr (load_stage w ctx s).original_module
          (load_stage w ctx s).module_size = c.SCAN_MODIFIED →
        ctx.isWow64 = false →
        (scan_module w c args ctx s).events.countP Event.isLoad = 1 ∧
        (scan_module w c args ctx s).events.countP Event.isHollow = 2 ∧
        (scan_module w c args ctx s).events.countP Event.isConvert = 0 ∧
        ∃ r rest, (scan_module w c args ctx s).events =
          (load_stage w ctx s).events ++
            [Event.hollows_scanRemote (load_stage w ctx s).modBaseAddr
                (load_stage w ctx s).original_module (load_stage w ctx s).module_size
                c.SCAN_MODIFIED,
              Event.hollows_scanRemote (load_stage w ctx s).modBaseAddr
                (load_stage w ctx s).original_module (load_stage w ctx s).module_size r] ++
            rest ∧
          r = w.hollows_scanRemote
            (s.trace ++ (load_stage w ctx s).events ++
              [Event.hollows_scanRemote (load_stage w ctx s).modBaseAddr
                (load_stage w ctx s).original_module (load_stage w ctx s).module_size
                c.SCAN_MODIFIED])
            ctx.processHandle (load_stage w ctx s).modBaseAddr
            (load_stage w ctx s).original_module (load_stage w ctx s).module_size) ∧
      (w.hollows_scanRemote (s.trace ++ (load_stage w ctx s).events) ctx.processHandle
          (load_stage w ctx s).modBaseAddr (load_stage w ctx s).original_module
          (load_stage w ctx s).module_size = c.SCAN_MODIFIED →
        ctx.isWow64 = true →
        (scan_module w c args ctx s).events.countP Event.isLoad = 2 ∧
        (scan_module w c args ctx s).events.countP Event.isHollow = 2 ∧
        (scan_module w c args ctx s).events.countP Event.isConvert = 1 ∧
        ∃ p2 sz2 r rest, (scan_module w c args ctx s).events =
          (load_stage w ctx s).events ++
            [Event.hollows_scanRemote (load_stage w ctx s).modBaseAddr
                (load_stage w ctx s).original_module (load_stage w ctx s).module_size
                c.SCAN_MODIFIED,
              Event.convert_to_wow64_path (load_stage w ctx s).szModName
                (w.convert_to_wow64_path (load_stage w ctx s).szModName).1
                (w.convert_to_wow64_path (load_stage w ctx s).szModName).2,
              Event.free_pe_buffer (load_stage w ctx s).original_module
                (load_stage w ctx s).module_size,
              Event.load_pe_module (w.convert_to_wow64_path (load_stage w ctx s).szModName).2
                p2 sz2,
              Event.hollows_scanRemote (load_stage w ctx s).modBaseAddr p2 sz2 r] ++
            rest ∧
          p2 = (w.load_pe_module
            (s.trace ++ (load_stage w ctx s).events ++
              [Event.hollows_scanRemote (load_stage w ctx s).modBaseAddr
                (load_stage w ctx s).original_module (load_stage w ctx s).module_size
                c.SCAN_MODIFIED,
              Event.convert_to_wow64_path (load_stage w ctx s).szModName
                (w.convert_to_wow64_path (load_stage w ctx s).szModName).1
                (w.convert_to_wow64_path (load_stage w ctx s).szModName).2,
              Event.free_pe_buffer (load_stage w ctx s).original_module
                (load_stage w ctx s).module_size])
            (w.convert_to_wow64_path (load_stage w ctx s).szModName).2).1 ∧
          sz2 = (w.load_pe_module
            (s.trace ++ (load_stage w ctx s).events ++
              [Event.hollows_scanRemote (load_stage w ctx s).modBaseAddr
                (load_stage w ctx s).original_module (load_stage w ctx s).module_size
                c.SCAN_MODIFIED,
              Event.convert_to_wow64_path (load_stage w ctx s).szModName
                (w.convert_to_wow64_path (load_stage w ctx s).szModName).1
                (w.convert_to_wow64_path (load_stage w ctx s).szModName).2,
              Event.free_pe_buffer (load_stage w ctx s).original_module
                (load_stage w ctx s).module_size])
            (w.convert_to_wow64_path (load_stage w ctx s).szModName).2).2 ∧
          r = w.hollows_scanRemote
            (s.trace ++ (load_stage w ctx s).events ++
              [Event.hollows_scanRemote (load_stage w ctx s).modBaseAddr
                (load_stage w ctx s).original_module (load_stage w ctx s).module_size
                c.SCAN_MODIFIED,
              Event.convert_to_wow64_path (load_stage w ctx s).szModName
                (w.convert_to_wow64_path (load_stage w ctx s).szModName).1
                (w.convert_to_wow64_path (load_stage w ctx s).szModName).2,
              Event.free_pe_buffer (load_stage w ctx s).original_module
                (load_stage w ctx s).module_size,
              Event.load_pe_module (w.convert_to_wow64_path (load_stage w ctx s).szModName).2
                p2 sz2])
            ctx.processHandle (load_stage w ctx s).modBaseAddr p2 sz2)) ∧
    (∀ (win64 : Bool) (ctx0 : ScanCtx) (s0 : LoopState),
      scan_begin w win64 args = Sum.inr (ctx0, s0) →
      ctx0.isWow64 =
        (win64 && w.IsWow64Process (open_process w [] args.pid).2 ctx0.processHandle)) := by
  obtain ⟨hl1, hl2, hl3, hl4⟩ := load_stage_counts w ctx s
  refine ⟨?_, ?_, fun win64 ctx0 s0 hb0 => scan_begin_isWow64 w win64 args ctx0 s0 hb0⟩
  · by_cases h0 : (load_stage w ctx s).original_module = 0
    · rw [scan_module_unloaded w c args ctx s h0, hl3, hl4]
      omega
    · have hone := hl2 h0
      rw [scan_module_loaded w c args ctx s h0]
      simp only []
      generalize load_stage w ctx s = l at *
      generalize s.trace ++ l.events = tr
      obtain ⟨rest, hrest, hclass⟩ := check_stage_tail w c args ctx s.report
        s.modified_modules l tr
      obtain ⟨ha, hb, hc, _⟩ := hollowing_stage_events w c ctx s.report s.modified_modules
        l.modBaseAddr l.dumpFileName l.szModName l.original_module l.module_size tr
      have hr1 : rest.countP Event.isLoad = 0 := by
        rw [List.countP_eq_zero]; intro e he; simp [(hclass e he).1]
      have hr2 : rest.countP Event.isConvert = 0 := by
        rw [List.countP_eq_zero]; intro e he; simp [(hclass e he).2.1]
      have hr3 : rest.countP Event.isHollow = 0 := by
        rw [List.countP_eq_zero]; intro e he; simp [(hclass e he).2.2]
      rw [hrest]
      simp only [List.countP_append, hr1, hr2, hr3, hl3, hl4, hone]
      by_cases h1 : w.hollows_scanRemote tr ctx.processHandle l.modBaseAddr l.original_module
          l.module_size = c.SCAN_MODIFIED
      · cases h2 : ctx.isWow64
        · rw [(hb h1 h2).1]
          simp [Event.isLoad, Event.isHollow, Event.isConvert]
        · rw [(hc h1 h2).1]
          simp [Event.isLoad, Event.isHollow, Event.isConvert]
      · rw [ha h1]
        simp [Event.isLoad, Event.isHollow, Event.isConvert]
  · intro h0
    have hone := hl2 h0
    rw [scan_module_loaded w c args ctx s h0]
    simp only []
    generalize load_stage w ctx s = l at *
    generalize s.trace ++ l.events = tr
    obtain ⟨rest, hrest, hclass⟩ := check_stage_tail w c args ctx s.report
      s.modified_modules l tr
    obtain ⟨ha, hb, hc, _⟩ := hollowing_stage_events w c ctx s.report s.modified_modules
      l.modBaseAddr l.dumpFileName l.szModName l.original_module l.module_size tr
    have hr1 : rest.countP Event.isLoad = 0 := by
      rw [List.countP_eq_zero]; intro e he; simp [(hclass e he).1]
    have hr2 : rest.countP Event.isConvert = 0 := by
      rw [List.countP_eq_zero]; intro e he; simp [(hclass e he).2.1]
    have hr3 : rest.countP Event.isHollow = 0 := by
      rw [List.countP_eq_zero]; intro e he; simp [(hclass e he).2.2]
    rw [check_stage_replaced, hrest]
    simp only [List.countP_append, hr1, hr2, hr3, hl3, hl4, hone]
    refine ⟨?_, ?_, ?_⟩
    · intro h1
      rw [ha h1]
      simp [Event.isLoad, Event.isHollow, Event.isConvert]
    · intro h1 h2
      rw [(hb h1 h2).1]
      refine ⟨by simp [Event.isLoad], by simp [Event.isHollow], by simp [Event.isConvert],
        (hollowing_stage w c ctx s.report s.modified_modules l.modBaseAddr l.dumpFileName
          l.szModName l.original_module l.module_size tr).is_hollowed, rest, by simp,
        (hb h1 h2).2.1⟩
    · intro h1 h2
      rw [(hc h1 h2).1]
      refine ⟨by simp [Event.isLoad], by simp [Event.isHollow], by simp [Event.isConvert],
        (hollowing_stage w c ctx s.report s.modified_modules l.modBaseAddr l.dumpFileName
          l.szModName l.original_module l.module_size tr).original_module,
        (hollowing_stage w c ctx s.report s.modified_modules l.modBaseAddr l.dumpFileName
          l.szModName l.original_module l.module_size tr).module_size,
        (hollowing_stage w c ctx s.report s.modified_modules l.modBaseAddr l.dumpFileName
          l.szModName l.original_module l.module_size tr).is_hollowed, rest, by simp,
        (hc h1 h2).2.2.1, (hc h1 h2).2.2.2.1, (hc h1 h2).2.2.2.2⟩


/-! ## The index into `hMods` -/

/-- The loop never removes a call from the trace. -/
theorem scan_loop_trace_mono (w : World) (c : ScanCodes) (args : t_params) (ctx : ScanCtx) :
    ∀ (fuel : Nat) (s : LoopState), ∀ e ∈ s.trace, e ∈ (scan_loop w c args ctx fuel s).trace := by
  intro fuel
  induction fuel with
  | zero => intro s e he; exact he
  | succ fuel ih =>
    intro s e he
    unfold scan_loop
    split_ifs
    · exact he
    · apply ih
      simp only [loop_step, List.mem_append]
      exact Or.inl he
    · exact he

/-- The first call of an iteration is the name lookup for `hMods[report.scanned]`. -/
theorem scan_module_first_call (w : World) (c : ScanCodes) (args : t_params) (ctx : ScanCtx)
    (s : LoopState) :
    Event.GetModuleFileNameExA ctx.processHandle (read_hMods w ctx s.report.scanned)
        (w.GetModuleFileNameExA s.trace ctx.processHandle (read_hMods w ctx s.report.scanned)) ∈
      (scan_module w c args ctx s).events := by
  have hl : Event.GetModuleFileNameExA ctx.processHandle (read_hMods w ctx s.report.scanned)
      (w.GetModuleFileNameExA s.trace ctx.processHandle (read_hMods w ctx s.report.scanned)) ∈
      (load_stage w ctx s).events := by
    unfold load_stage
    simp only []
    split_ifs <;> simp
  unfold scan_module
  simp only []
  split_ifs
  · exact hl
  · simp only [List.mem_append]
    exact Or.inl hl

/-- Every index below the module count is used to read `hMods`: the trace of the loop holds the
name lookup of iteration `j`, made for the value read at `hMods[j]`. -/
theorem scan_loop_reads (w : World) (c : ScanCodes) (args : t_params) (ctx : ScanCtx)
    (s0 : LoopState) (hh : ctx.processHandle ≠ 0) (hi : s0.i = 0) (hs : s0.report.scanned = 0)
    (j : Nat) (hj : j < ctx.modules_count) :
    Event.GetModuleFileNameExA ctx.processHandle (read_hMods w ctx j)
        (w.GetModuleFileNameExA (scan_loop w c args ctx j s0).trace ctx.processHandle
          (read_hMods w ctx j)) ∈
      (scan_loop w c args ctx ctx.modules_count s0).trace := by
  have e : ctx.modules_count = (j + 1) + (ctx.modules_count - (j + 1)) := by omega
  rw [e, scan_loop_add]
  apply scan_loop_trace_mono
  rw [scan_loop_succ w c args ctx hh j s0 (by omega)]
  simp only [loop_step, List.mem_append]
  right
  have h1 := scan_module_first_call w c args ctx (scan_loop w c args ctx j s0)
  rw [scan_loop_scanned w c args ctx hh j s0 (by omega) (by rw [hs, hi])] at h1
  simpa [hi] using h1

set_option maxRecDepth 100000

/-- C8 (the code at the failing input): for a target with 1025 modules the enumeration call is
given the 8192 bytes of `hMods` and reports 8200 bytes needed; `enum_modules` returns
`8200 / 8 = 1025`, which exceeds the capacity `8192 / 8 = 1024` of the array; the loop runs 1025
iterations, and the last one reads `hMods[1024]`, past the end of the array. -/
theorem module_count_exceeds_capacity :
    (enum_modules crowdedWorld true
        [Event.OpenProcess 1234 7 0, Event.IsWow64Process 7 false] 7 (sizeof_hMods true)
        3).modules_count = 1025 ∧
    sizeof_hMods true / sizeof_HMODULE true = 1024 ∧
    scan_begin crowdedWorld true someArgs = Sum.inr (crowdedCtx, crowdedStart) ∧
    (check_modules_in_process crowdedWorld stdCodes true someArgs).scanned = 1025 ∧
    crowdedCtx.hMods.length = 1024 ∧
    Event.GetModuleFileNameExA 7 (crowdedWorld.indeterminate 1024) (some "a.dll") ∈
      (check_modules_run crowdedWorld stdCodes true someArgs).trace := by
  have hb : scan_begin crowdedWorld true someArgs = Sum.inr (crowdedCtx, crowdedStart) := by rfl
  have hh : crowdedCtx.processHandle ≠ 0 := by decide
  have hrun := check_modules_run_ready crowdedWorld stdCodes true someArgs crowdedCtx
    crowdedStart hb
  refine ⟨by rfl, by decide, hb, ?_, by simp [crowdedCtx], ?_⟩
  · simp only [check_modules_in_process, hrun, (scan_end_report _ _ _ _).1]
    rw [scan_loop_scanned crowdedWorld stdCodes someArgs crowdedCtx hh crowdedCtx.modules_count
      crowdedStart (by decide) (by rfl)]
    rfl
  · have h1 := scan_loop_reads crowdedWorld stdCodes someArgs crowdedCtx crowdedStart hh rfl rfl
      1024 (by decide)
    have h2 : read_hMods crowdedWorld crowdedCtx 1024 = crowdedWorld.indeterminate 1024 := by
      rfl
    rw [h2] at h1
    rw [hrun]
    unfold scan_end
    split_ifs
    · simp only [List.mem_append]
      exact Or.inl h1
    · exact h1


/-! ## The error accounting -/

/-- The hook stage does not touch `errors`. -/
theorem hook_stage_errors (w : World) (c : ScanCodes) (args : t_params) (ctx : ScanCtx)
    (base : Nat) (dump : String) (h : HollowOut) (tr : List Event) :
    (hook_stage w c args ctx base dump h tr).report.errors = h.report.errors := by
  unfold hook_stage
  simp only []
  split_ifs <;> rfl

/-- The status of the hook comparator never reaches the error accounting: when the hollowing
comparison answers `SCAN_NOT_MODIFIED`, and that value differs from `SCAN_MODIFIED` and from
`SCAN_ERROR`, the checks leave `errors` as it was, whatever the hook comparator answers. -/
theorem hook_status_ignored (w : World) (c : ScanCodes) (args : t_params) (ctx : ScanCtx)
    (report : t_report) (mm : List (Nat × String)) (l : LoadOut) (tr : List Event)
    (hne : c.SCAN_NOT_MODIFIED ≠ c.SCAN_ERROR) (hnm : c.SCAN_NOT_MODIFIED ≠ c.SCAN_MODIFIED)
    (hfirst : w.hollows_scanRemote tr ctx.processHandle l.modBaseAddr l.original_module
      l.module_size = c.SCAN_NOT_MODIFIED) :
    (check_stage w c args ctx report mm l tr).report.errors = report.errors := by
  have ha := (hollowing_stage_events w c ctx report mm l.modBaseAddr l.dumpFileName l.szModName
    l.original_module l.module_size tr).1 (by rw [hfirst]; exact hnm)
  unfold check_stage
  simp only []
  rw [ha]
  simp [hfirst, hne, hook_stage_errors]

/-- C3 (the code at the failing input): one module whose hollowing comparison answers
`SCAN_NOT_MODIFIED` and whose hook comparison answers `SCAN_ERROR`.  The hook comparison is in
the trace with the error status, and the report comes back with `errors = 0`. -/
theorem hook_error_not_counted :
    Event.hollows_scanRemote 4194304 4096 512 stdCodes.SCAN_NOT_MODIFIED ∈
      (check_modules_run hookErrorWorld stdCodes true someArgs).trace ∧
    Event.hooks_scanRemote 4194304 4096 512 stdCodes.SCAN_ERROR [] ∈
      (check_modules_run hookErrorWorld stdCodes true someArgs).trace ∧
    check_modules_in_process hookErrorWorld stdCodes true someArgs =
      { pid := 1234, scanned := 1, hooked := 0, replaced := 0, suspicious := 0,
        errors := 0 } := by
  decide

/-- After a first `SCAN_MODIFIED`, a second comparison that answers `SCAN_ERROR` counts the
module as replaced and puts it in the modified set, whenever `SCAN_ERROR` is not the zero of
the enumeration. -/
theorem rescan_error_replaced (w : World) (c : ScanCodes) (ctx : ScanCtx) (report : t_report)
    (mm : List (Nat × String)) (base : Nat) (dump nm : String) (p sz : Nat) (tr : List Event)
    (hz : c.SCAN_ERROR ≠ 0)
    (hfirst : w.hollows_scanRemote tr ctx.processHandle base p sz = c.SCAN_MODIFIED)
    (hsecond : (hollowing_stage w c ctx report mm base dump nm p sz tr).is_hollowed =
      c.SCAN_ERROR) :
    (hollowing_stage w c ctx report mm base dump nm p sz tr).report.replaced =
      report.replaced + 1 ∧
    (hollowing_stage w c ctx report mm base dump nm p sz tr).modified_modules =
      map_assign mm base dump := by
  have h := ((hollowing_stage_events w c ctx report mm base dump nm p sz tr).2.2.2 hfirst).1
    (by rw [hsecond]; exact hz)
  rw [h.1, h.2]
  simp

/-- C5 (the code at the failing input): one module whose first hollowing comparison answers
`SCAN_MODIFIED` and whose second answers `SCAN_ERROR`.  The report comes back with
`replaced = 1` and `errors = 1`, and the module is in the modified set. -/
theorem rescan_error_counted_replaced :
    (check_modules_run rescanErrorWorld stdCodes true someArgs).trace.filter Event.isHollow =
      [Event.hollows_scanRemote 4194304 4096 512 stdCodes.SCAN_MODIFIED,
        Event.hollows_scanRemote 4194304 4096 512 stdCodes.SCAN_ERROR] ∧
    check_modules_in_process rescanErrorWorld stdCodes true someArgs =
      { pid := 1234, scanned := 1, hooked := 0, replaced := 1, suspicious := 0,
        errors := 1 } ∧
    map_keys (check_modules_run rescanErrorWorld stdCodes true someArgs).modified_modules =
      [4194304] := by
  decide

/-- C10 (the code at the failing input): a Wow64 target whose reference loads from the native
path but not from the translated one.  The second load answers a null buffer, and the hollowing
comparator, the export lookup and the hook comparator are all called with it. -/
theorem null_reference_reaches_scanners :
    (check_modules_run reloadFailsWorld stdCodes true someArgs).trace.drop 4 =
      [Event.GetModuleFileNameExA 7 4194304 (some "a.dll"),
        Event.load_pe_module "a.dll" 4096 512,
        Event.hollows_scanRemote 4194304 4096 512 stdCodes.SCAN_MODIFIED,
        Event.convert_to_wow64_path "a.dll" true "a.dll64",
        Event.free_pe_buffer 4096 512,
        Event.load_pe_module "a.dll64" 0 0,
        Event.hollows_scanRemote 4194304 0 0 stdCodes.SCAN_NOT_MODIFIED,
        Event.add_to_lookup "a.dll64" 0 4194304,
        Event.hooks_scanRemote 4194304 0 0 stdCodes.SCAN_NOT_MODIFIED [],
        Event.free_pe_buffer 0 0] := by
  decide

/-- C6 (counterexample): a 64-bit build scanning a native 64-bit target whose only module is
reported modified.  The module is counted as replaced after two comparisons, with a single load
and no path translation. -/
theorem native_target_no_reload :
    (check_modules_in_process nativeReplacedWorld stdCodes true someArgs).replaced = 1 ∧
    (check_modules_run nativeReplacedWorld stdCodes true someArgs).trace.countP Event.isHollow
      = 2 ∧
    (check_modules_run nativeReplacedWorld stdCodes true someArgs).trace.countP Event.isLoad
      = 1 ∧
    (check_modules_run nativeReplacedWorld stdCodes true someArgs).trace.countP Event.isConvert
      = 0 := by
  decide

/-! ## The theorems at concrete inputs -/

/-- C1 at concrete inputs: an open that is denied, and an enumeration that fails. -/
theorem check_modules_fatal_witness :
    ((open_process deniedWorld [] someArgs.pid).1 = 0 ∧
      check_modules_in_process deniedWorld stdCodes true someArgs =
        { pid := 1234, scanned := 0, hooked := 0, replaced := 0, suspicious := 0,
          errors := 1 }) ∧
    ((open_process emptyWorld [] someArgs.pid).1 ≠ 0 ∧
      check_modules_in_process emptyWorld stdCodes true someArgs =
        { pid := 1234, scanned := 0, hooked := 0, replaced := 0, suspicious := 0,
          errors := 1 }) :=
  ⟨⟨by decide, ((check_modules_fatal deniedWorld stdCodes true someArgs).1 (by decide)).1⟩,
    ⟨by decide,
      ((check_modules_fatal emptyWorld stdCodes true someArgs).2 (by decide) (by decide)).1⟩⟩

/-- C2 at a concrete input: four modules, one clean, one replaced, one hooked, one without a
name. -/
theorem scan_counts_witness :
    stdCodes.SCAN_NOT_MODIFIED = 0 ∧
    scan_begin mixedWorld true someArgs = Sum.inr (mixedCtx, mixedStart) ∧
    (check_modules_in_process mixedWorld stdCodes true someArgs).scanned = 4 ∧
    (check_modules_in_process mixedWorld stdCodes true someArgs).hooked +
        (check_modules_in_process mixedWorld stdCodes true someArgs).replaced +
        (check_modules_in_process mixedWorld stdCodes true someArgs).suspicious ≤
      (check_modules_in_process mixedWorld stdCodes true someArgs).scanned :=
  ⟨by decide, by decide,
    (scan_counts mixedWorld stdCodes true someArgs mixedCtx mixedStart (by decide)
      (by decide)).1,
    (scan_counts mixedWorld stdCodes true someArgs mixedCtx mixedStart (by decide)
      (by decide)).2.2.2.2⟩

/-- C4 at a concrete input: the fourth module of `mixedWorld`, whose name is not resolved. -/
theorem unreadable_module_suspicious_witness :
    mixedWorld.GetModuleFileNameExA (scan_loop mixedWorld stdCodes someArgs mixedCtx 3
        mixedStart).trace mixedCtx.processHandle
      (read_hMods mixedWorld mixedCtx
        (scan_loop mixedWorld stdCodes someArgs mixedCtx 3 mixedStart).report.scanned) = none ∧
    (loop_step mixedWorld stdCodes someArgs mixedCtx
        (scan_loop mixedWorld stdCodes someArgs mixedCtx 3 mixedStart)).report =
      { (scan_loop mixedWorld stdCodes someArgs mixedCtx 3 mixedStart).report with
        suspicious := (scan_loop mixedWorld stdCodes someArgs mixedCtx 3
          mixedStart).report.suspicious + 1,
        scanned := (scan_loop mixedWorld stdCodes someArgs mixedCtx 3
          mixedStart).report.scanned + 1 } :=
  ⟨by decide,
    (unreadable_module_suspicious mixedWorld stdCodes someArgs mixedCtx
      (scan_loop mixedWorld stdCodes someArgs mixedCtx 3 mixedStart) (Or.inl (by decide))).1⟩

/-- C6 (amended) at a concrete input: the module of a Wow64 target, reported modified. -/
theorem hollowing_retry_witness :
    scan_begin wow64World true someArgs = Sum.inr (wow64Ctx, wow64Start) ∧
    (load_stage wow64World wow64Ctx wow64Start).original_module ≠ 0 ∧
    wow64World.hollows_scanRemote
        (wow64Start.trace ++ (load_stage wow64World wow64Ctx wow64Start).events)
        wow64Ctx.processHandle (load_stage wow64World wow64Ctx wow64Start).modBaseAddr
        (load_stage wow64World wow64Ctx wow64Start).original_module
        (load_stage wow64World wow64Ctx wow64Start).module_size = stdCodes.SCAN_MODIFIED ∧
    wow64Ctx.isWow64 = true ∧
    (scan_module wow64World stdCodes someArgs wow64Ctx wow64Start).events.countP Event.isLoad
      = 2 :=
  ⟨by decide, by decide, by decide, by decide,
    (((hollowing_retry wow64World stdCodes someArgs wow64Ctx wow64Start).2.1
      (by decide)).2.2 (by decide) (by decide)).1⟩

/-- C7 at concrete inputs: the three modified modules of `mixedWorld` get one dump each; and
over a set of three entries in a world where the second dump fails, the second call carries the
failure and the count returned is 2. -/
theorem dump_pass_witness :
    (scan_begin mixedWorld true someArgs = Sum.inr (mixedCtx, mixedStart) ∧
      map_keys (scan_loop mixedWorld stdCodes someArgs mixedCtx 4 mixedStart).modified_modules =
        [131072, 196608, 262144] ∧
      (check_modules_run mixedWorld stdCodes true someArgs).trace.countP
        (Event.isDumpOf 131072) = 1) ∧
    (sampleSet[0]? = some (131072, "a.dmp") ∧
      (dump_all_modified dumpFailsWorld [] 7 sampleSet true).2[0]? =
        some (Event.dump_remote_pe "a.dmp" 7 131072 true true true) ∧
      sampleSet[1]? = some (196608, "b.dmp") ∧
      (dump_all_modified dumpFailsWorld [] 7 sampleSet true).2[1]? =
        some (Event.dump_remote_pe "b.dmp" 7 196608 true true false) ∧
      (dump_all_modified dumpFailsWorld [] 7 sampleSet true).1 = 2) :=
  ⟨⟨by decide, by decide,
    ((dump_pass mixedWorld stdCodes true someArgs).2.1 mixedCtx mixedStart (by decide)
      (by decide) (by decide)).2.2 4 (by decide) 131072 (by decide)⟩,
    ⟨by decide,
      (((dump_pass dumpFailsWorld stdCodes true someArgs).1 [] 7 sampleSet true).2.2.1 0
        (131072, "a.dmp") (by decide)).trans (by decide),
      by decide,
      (((dump_pass dumpFailsWorld stdCodes true someArgs).1 [] 7 sampleSet true).2.2.1 1
        (196608, "b.dmp") (by decide)).trans (by decide),
      (((dump_pass dumpFailsWorld stdCodes true someArgs).1 [] 7 sampleSet true).2.2.2.1).trans
        (by decide)⟩⟩

end PeSieve
